import Mathlib

/-!
Shallow embedding of the location-resolution engine of the pm-accelerator
weather backend (`src/back/src/services/geocode.service.ts`,
`src/back/src/services/fallback-geocode.service.ts`, the `ZipCodeBaseService`
and the `NominatimService`), together with proofs about the embedded code.

Modelling conventions:
* JS strings are `List Char` (`Str`); JS string methods (`trim`, `split`,
  `toLowerCase`, ...) are translated into explicit list functions.
* JS numbers are `JsNum` (NaN / ±Infinity / a finite value).  Finite values
  are modelled by exact rationals, the standard idealisation of IEEE doubles;
  `jsNumToString` models number-to-string interpolation by the plain decimal
  expansion (truncated far beyond double precision).
* The regular expressions of the source are translated into deterministic
  matchers over `List Char`; where the regex engine could backtrack the
  matcher carries the corresponding disjunction.
* Network calls (`axios.get`, provider services) are modelled by an
  environment `Env` of oracles, one per endpoint, returning either a provider
  error or a decoded response.  A thrown JS exception is an `Except.error`.
-/

namespace Geo

abbrev Str := List Char

/-- Leading-whitespace removal, the `\s*` / `trimStart` building block. -/
def dropWs : Str → Str
  | c :: cs => if c.isWhitespace then dropWs cs else c :: cs
  | [] => []

/-- JS `String.prototype.trim`: whitespace stripped from both ends. -/
def trimStr (cs : Str) : Str :=
  (dropWs (dropWs cs).reverse).reverse

/-- JS `String.prototype.toLowerCase` (ASCII-relevant part). -/
def toLowerStr (cs : Str) : Str :=
  cs.map Char.toLower

/-- JS `String.prototype.toUpperCase` (ASCII-relevant part). -/
def toUpperStr (cs : Str) : Str :=
  cs.map Char.toUpper

/-- JS `hay.includes(needle)`: substring test. -/
def hasSubstr (needle : Str) : Str → Bool
  | [] => needle.isEmpty
  | c :: rest => needle.isPrefixOf (c :: rest) || hasSubstr needle rest

/-- Split off the maximal leading run of decimal digits (`\d*`). -/
def splitDigits : Str → Str × Str
  | [] => ([], [])
  | c :: cs =>
    if c.isDigit then
      let p := splitDigits cs
      (c :: p.1, p.2)
    else ([], c :: cs)

/-- Numeric value of a digit string (used by the parseFloat model). -/
def digitsToNat (ds : Str) : Nat :=
  ds.foldl (fun acc c => 10 * acc + (c.toNat - 48)) 0

mutual

/-- JS `input.split(/\s+/)`: split on maximal whitespace runs, keeping the
leading/trailing empty fragments JS produces. `go` accumulates the current
word (reversed). -/
def splitWsGo (acc : Str) : Str → List Str
  | [] => [acc.reverse]
  | c :: rest =>
    if c.isWhitespace then acc.reverse :: splitWsSkip rest
    else splitWsGo (c :: acc) rest

/-- Skip the remainder of a whitespace run, then continue splitting. -/
def splitWsSkip : Str → List Str
  | [] => [[]]
  | c :: rest =>
    if c.isWhitespace then splitWsSkip rest
    else splitWsGo [c] rest

end

def splitWs (cs : Str) : List Str :=
  splitWsGo [] cs

/-- First-occurrence deduplication, the behaviour of `[...new Set(xs)]`. -/
def dedupKeepFirst : List Str → List Str
  | [] => []
  | a :: l => a :: dedupKeepFirst (l.filter (· ≠ a))
termination_by l => l.length
decreasing_by
  simp only [List.length_cons]
  exact Nat.lt_succ_of_le (List.length_filter_le _ _)

/-- JS string truthiness for an optional string field:
`undefined` and the empty string are falsy. -/
def strTruthy : Option Str → Bool
  | some (_ :: _) => true
  | _ => false

/-- Source: `field || dflt` on an optional string field. -/
def orElseStr : Option Str → Str → Str
  | some (c :: cs), _ => c :: cs
  | _, d => d

/-- Source: `parts.join(', ')`. -/
def joinComma : List Str → Str
  | [] => []
  | [p] => p
  | p :: q :: rest => p ++ ',' :: ' ' :: joinComma (q :: rest)

/-! ## JS numbers -/

/-- Model of a JS number: NaN, ±Infinity, or a finite value (idealised as an
exact rational). -/
inductive JsNum where
  | nan
  | inf
  | negInf
  | fin (q : ℚ)
deriving DecidableEq

/-- JS `<` (false whenever an operand is NaN). -/
def jsLt : JsNum → JsNum → Bool
  | .nan, _ => false
  | _, .nan => false
  | .negInf, .negInf => false
  | .negInf, _ => true
  | _, .negInf => false
  | .inf, _ => false
  | .fin _, .inf => true
  | .fin a, .fin b => a < b

/-- JS `<=` (false whenever an operand is NaN). -/
def jsLe : JsNum → JsNum → Bool
  | .nan, _ => false
  | _, .nan => false
  | .negInf, _ => true
  | _, .negInf => false
  | _, .inf => true
  | .inf, _ => false
  | .fin a, .fin b => a ≤ b

/-- JS `isNaN` on an already-numeric value. -/
def jsIsNaN : JsNum → Bool
  | .nan => true
  | _ => false

/-- JS `+` on numbers. -/
def jsAdd : JsNum → JsNum → JsNum
  | .nan, _ => .nan
  | _, .nan => .nan
  | .inf, .negInf => .nan
  | .negInf, .inf => .nan
  | .inf, _ => .inf
  | _, .inf => .inf
  | .negInf, _ => .negInf
  | _, .negInf => .negInf
  | .fin a, .fin b => .fin (a + b)

/-- JS `/` on numbers (no signed zero in the rational idealisation). -/
def jsDiv : JsNum → JsNum → JsNum
  | .nan, _ => .nan
  | _, .nan => .nan
  | .inf, .inf => .nan
  | .inf, .negInf => .nan
  | .negInf, .inf => .nan
  | .negInf, .negInf => .nan
  | .inf, .fin b => if b < 0 then .negInf else .inf
  | .negInf, .fin b => if b < 0 then .inf else .negInf
  | .fin _, .inf => .fin 0
  | .fin _, .negInf => .fin 0
  | .fin a, .fin b =>
    if b = 0 then (if a = 0 then .nan else if a < 0 then .negInf else .inf)
    else .fin (a / b)

/-- JS unary minus. -/
def jsNeg : JsNum → JsNum
  | .nan => .nan
  | .inf => .negInf
  | .negInf => .inf
  | .fin q => .fin (-q)

/-! ### parseFloat -/

/-- Exponent part of a float literal (`e`/`E`, optional sign, digits);
returns 0 when no digits follow, as `parseFloat` then stops before the `e`. -/
def parseExpPart : Str → Int
  | '-' :: t => match splitDigits t with
    | ([], _) => 0
    | (d, _) => -(digitsToNat d : Int)
  | '+' :: t => match splitDigits t with
    | ([], _) => 0
    | (d, _) => (digitsToNat d : Int)
  | t => match splitDigits t with
    | ([], _) => 0
    | (d, _) => (digitsToNat d : Int)

/-- Unsigned decimal part of `parseFloat`: longest prefix of the form
`\d*\.?\d*` with at least one digit, with an optional exponent. -/
def parseDec (s : Str) : JsNum :=
  let p1 := splitDigits s
  let p2 := match p1.2 with
    | '.' :: t => splitDigits t
    | _ => ([], p1.2)
  if p1.1 = [] ∧ p2.1 = [] then .nan
  else
    let mant : ℚ := (digitsToNat p1.1 : ℚ) + (digitsToNat p2.1 : ℚ) / 10 ^ p2.1.length
    let e : Int := match p2.2 with
      | 'e' :: t => parseExpPart t
      | 'E' :: t => parseExpPart t
      | _ => 0
    .fin (mant * 10 ^ e)

/-- Unsigned part of `parseFloat`: `Infinity` or a decimal literal. -/
def parseUnsigned (s : Str) : JsNum :=
  if ("Infinity".data).isPrefixOf s then .inf else parseDec s

/-- Model of JS `parseFloat`: skip leading whitespace, optional sign, then
the longest valid float prefix; NaN when no number can be read. -/
def jsParseFloat (s : Str) : JsNum :=
  match dropWs s with
  | '-' :: rest => jsNeg (parseUnsigned rest)
  | '+' :: rest => parseUnsigned rest
  | s' => parseUnsigned s'

/-- Source: `parseFloat` applied to a possibly-undefined value (JS stringifies
`undefined`, which parses as NaN). -/
def optParseFloat : Option Str → JsNum
  | none => .nan
  | some s => jsParseFloat s

/-! ### Number-to-string (template literal interpolation) -/

/-- Little-endian decimal digits of a natural number. -/
def natDigitsRev (n : Nat) : Str :=
  if h : n < 10 then [Nat.digitChar n]
  else Nat.digitChar (n % 10) :: natDigitsRev (n / 10)
termination_by n
decreasing_by
  exact Nat.div_lt_self (by omega) (by norm_num)

/-- Decimal representation of a natural number. -/
def natStr (n : Nat) : Str :=
  (natDigitsRev n).reverse

/-- Successive decimal digits of a fraction in `[0,1)` (fuelled; stops at 0). -/
def fracDigitsAux : Nat → ℚ → Str
  | 0, _ => []
  | fuel + 1, q =>
    if q = 0 then []
    else
      let d : Int := (q * 10).floor
      Nat.digitChar d.toNat :: fracDigitsAux fuel (q * 10 - (d : ℚ))

/-- Plain decimal rendering of a rational, modelling JS number-to-string for
the finite case (fraction truncated far beyond double precision). -/
def ratStr (q : ℚ) : Str :=
  let a := |q|
  let n := a.floor.toNat
  let f := fracDigitsAux 40 (a - (n : ℚ))
  let body := natStr n ++ (if f = [] then [] else '.' :: f)
  if q < 0 then '-' :: body else body

/-- Template-literal interpolation of a JS number. -/
def jsNumToString : JsNum → Str
  | .nan => "NaN".data
  | .inf => "Infinity".data
  | .negInf => "-Infinity".data
  | .fin q => ratStr q

/-! ## Regex matchers of `geocode.service.ts` -/

/-- One `\d+\.?\d*` token (greedy, which is equivalent here); returns the
matched text and the rest. -/
def numToken (cs : Str) : Option (Str × Str) :=
  match cs with
  | c :: _ =>
    if c.isDigit then
      match splitDigits cs with
      | (d1, '.' :: t) => some (d1 ++ '.' :: (splitDigits t).1, (splitDigits t).2)
      | p => some p
    else none
  | [] => none

/-- One `-?\d+\.?\d*` token. -/
def signedNumToken (cs : Str) : Option (Str × Str) :=
  match cs with
  | '-' :: rest => (numToken rest).map fun p => ('-' :: p.1, p.2)
  | _ => numToken cs

/-- Source: `decimalPattern = /^-?\d+\.?\d*,\s*-?\d+\.?\d*$/` from `isCoordinates`. -/
def matchDecimal (cs : Str) : Bool :=
  match signedNumToken cs with
  | some (_, ',' :: r) =>
    match signedNumToken (dropWs r) with
    | some (_, []) => true
    | _ => false
  | _ => false

/-- Source: `altPattern = /^(-?\d+\.?\d*)\s*[,;]\s*(-?\d+\.?\d*)$/`, returning the two
capture groups as `normalizeCoordinates` uses them. -/
def altMatch (cs : Str) : Option (Str × Str) :=
  match signedNumToken cs with
  | some (g1, r1) =>
    match dropWs r1 with
    | c :: r2 =>
      if c = ',' ∨ c = ';' then
        match signedNumToken (dropWs r2) with
        | some (g2, []) => some (g1, g2)
        | _ => none
      else none
    | [] => none
  | none => none

/-- The `\d*\.?\d*` seconds group of the DMS pattern (may match empty). -/
def secToken (cs : Str) : Str × Str :=
  match splitDigits cs with
  | (a, '.' :: t) => (a ++ '.' :: (splitDigits t).1, (splitDigits t).2)
  | p => p

/-- One half of the DMS pattern:
`(\d+)°(\d+)['′](\d*\.?\d*)["″]?(dir)` with `dir` tested by `isDir`.
Returns (degrees, minutes, seconds, direction char, rest). -/
def dmsHalf (isDir : Char → Bool) (cs : Str) : Option (Str × Str × Str × Char × Str) :=
  match splitDigits cs with
  | ([], _) => none
  | (deg, '°' :: r1) =>
    match splitDigits r1 with
    | ([], _) => none
    | (mins, p :: r2) =>
      if p = '\'' ∨ p = '′' then
        let s := secToken r2
        let r4 := match s.2 with
          | '"' :: t => t
          | '″' :: t => t
          | r => r
        match r4 with
        | d :: r5 => if isDir d then some (deg, mins, s.1, d, r5) else none
        | [] => none
      else none
    | _ => none
  | _ => none

/-- Source: `[NS]` with the `/i` flag. -/
def isNSDir (c : Char) : Bool :=
  c = 'N' ∨ c = 'S' ∨ c = 'n' ∨ c = 's'

/-- Source: `[EW]` with the `/i` flag. -/
def isEWDir (c : Char) : Bool :=
  c = 'E' ∨ c = 'W' ∨ c = 'e' ∨ c = 'w'

/-- The capture groups of the DMS coordinate pattern. -/
structure DmsGroups where
  latDeg : Str
  latMin : Str
  latSec : Str
  latDir : Char
  lonDeg : Str
  lonMin : Str
  lonSec : Str
  lonDir : Char
deriving DecidableEq

/-- Source: `dmsPattern = /^(\d+)°(\d+)['′](\d*\.?\d*)["″]?([NS])\s+(\d+)°(\d+)['′](\d*\.?\d*)["″]?([EW])$/i`,
returning the capture groups used by `normalizeCoordinates`. -/
def dmsParse (cs : Str) : Option DmsGroups :=
  match dmsHalf isNSDir cs with
  | some (d1, m1, s1, dir1, rest) =>
    match rest with
    | c :: r =>
      if c.isWhitespace then
        match dmsHalf isEWDir (dropWs r) with
        | some (d2, m2, s2, dir2, []) => some ⟨d1, m1, s1, dir1, d2, m2, s2, dir2⟩
        | _ => none
      else none
    | [] => none
  | none => none

/-- Source: `isCoordinates` (geocode.service.ts lines 143-154). -/
def isCoordinates (cs : Str) : Bool :=
  matchDecimal cs || (dmsParse cs).isSome || (altMatch cs).isSome

/-- Source: `usZip = /^\d{5}(-\d{4})?$/`. -/
def usZip (cs : Str) : Bool :=
  match splitDigits cs with
  | (d, []) => d.length = 5
  | (d, '-' :: r) =>
    d.length = 5 &&
      (match splitDigits r with
       | (e, []) => e.length = 4
       | _ => false)
  | _ => false

/-- Source: `brCep = /^\d{5}-?\d{3}$/`. -/
def brCep (cs : Str) : Bool :=
  match splitDigits cs with
  | (d, []) => d.length = 8
  | (d, '-' :: r) =>
    d.length = 5 &&
      (match splitDigits r with
       | (e, []) => e.length = 3
       | _ => false)
  | _ => false

/-- Source: `[A-Z]` with the `/i` flag: an ASCII letter. -/
def isAsciiLetter (c : Char) : Bool :=
  c.isUpper || c.isLower

/-- Tail `\d[A-Z]{2}$` of the UK postcode pattern. -/
def ukEnd : Str → Bool
  | [d, a, b] => d.isDigit && isAsciiLetter a && isAsciiLetter b
  | _ => false

/-- Tail `\s?\d[A-Z]{2}$` of the UK postcode pattern. -/
def ukSpaceEnd : Str → Bool
  | c :: rest => if c.isWhitespace then ukEnd rest else ukEnd (c :: rest)
  | [] => false

/-- After the leading letters: `\d[A-Z\d]?\s?\d[A-Z]{2}$` (the optional
`[A-Z\d]` is tried both ways, as the regex engine would backtrack). -/
def ukAfterLetters : Str → Bool
  | d :: rest =>
    d.isDigit &&
      (ukSpaceEnd rest ||
        (match rest with
         | x :: r => (isAsciiLetter x || x.isDigit) && ukSpaceEnd r
         | [] => false))
  | [] => false

/-- Source: `ukPostcode = /^[A-Z]{1,2}\d[A-Z\d]?\s?\d[A-Z]{2}$/i` (one or two leading
letters, both alternatives tried). -/
def ukPostcode : Str → Bool
  | a :: rest =>
    isAsciiLetter a &&
      (ukAfterLetters rest ||
        (match rest with
         | b :: r => isAsciiLetter b && ukAfterLetters r
         | [] => false))
  | [] => false

/-- Source: `caPostcode = /^[A-Z]\d[A-Z]\s?\d[A-Z]\d$/i`. -/
def caPostcode : Str → Bool
  | a :: d1 :: b :: rest =>
    isAsciiLetter a && d1.isDigit && isAsciiLetter b &&
      (match rest with
       | c :: rest' =>
         if c.isWhitespace then caEnd rest' else caEnd (c :: rest')
       | [] => false)
  | _ => false
where
  /-- Tail `\d[A-Z]\d$`. -/
  caEnd : Str → Bool
    | [d2, e, d3] => d2.isDigit && isAsciiLetter e && d3.isDigit
    | _ => false

/-- Source: `genericZip = /^\d{5,10}$/`. -/
def genericZip (cs : Str) : Bool :=
  match splitDigits cs with
  | (d, []) => 5 ≤ d.length && d.length ≤ 10
  | _ => false

/-- Source: `isZipCode` (geocode.service.ts lines 161-179). -/
def isZipCode (cs : Str) : Bool :=
  usZip cs || brCep cs || ukPostcode cs || caPostcode cs || genericZip cs

/-- The fixed landmark vocabulary (geocode.service.ts lines 187-193). -/
def landmarkKeywords : List Str :=
  ["airport".data, "station".data, "hospital".data, "university".data,
   "college".data, "school".data, "museum".data, "park".data, "plaza".data,
   "square".data, "mall".data, "center".data, "centre".data, "tower".data,
   "bridge".data, "monument".data, "cathedral".data, "church".data,
   "temple".data, "stadium".data, "arena".data, "theater".data,
   "theatre".data, "cinema".data, "hotel".data, "restaurant".data,
   "cafe".data, "bar".data, "club".data, "gym".data, "library".data]

/-- Source: `isLandmark`: case-insensitive substring match against the vocabulary. -/
def isLandmark (cs : Str) : Bool :=
  let lower := toLowerStr cs
  landmarkKeywords.any fun kw => hasSubstr kw lower

/-- Source: `isCity`: at most 3 whitespace-separated words, no digits, every word
longer than one character. -/
def isCity (cs : Str) : Bool :=
  let words := splitWs cs
  words.length ≤ 3 && !(cs.any Char.isDigit) && words.all fun w => 1 < w.length

/-! ## Normalizers and the type classifier -/

/-- Source: `latSec || '0'`: an empty seconds group defaults to `'0'`. -/
def secOrZero (s : Str) : Str :=
  match s with
  | [] => "0".data
  | _ => s

/-- Signed DMS component value:
`parseFloat(deg) + parseFloat(min) / 60 + parseFloat(sec || '0') / 3600`,
negated for the `S`/`W` hemisphere letter `negDir`. -/
def dmsValue (deg mins sec : Str) (dir : Char) (negDir : Char) : JsNum :=
  let v :=
    jsAdd (jsAdd (jsParseFloat deg) (jsDiv (jsParseFloat mins) (.fin 60)))
      (jsDiv (jsParseFloat (secOrZero sec)) (.fin 3600))
  if dir.toUpper = negDir then jsNeg v else v

/-- Source: `normalizeCoordinates` (geocode.service.ts lines 215-237): DMS inputs are
converted to `"lat,lon"`, alternate-separator inputs are reassembled from the
two capture groups, anything else passes through unchanged. -/
def normalizeCoordinates (cs : Str) : Str :=
  match dmsParse cs with
  | some g =>
    jsNumToString (dmsValue g.latDeg g.latMin g.latSec g.latDir 'S') ++
      ',' :: jsNumToString (dmsValue g.lonDeg g.lonMin g.lonSec g.lonDir 'W')
  | none =>
    match altMatch cs with
    | some (g1, g2) => g1 ++ ',' :: g2
    | none => cs

/-- Source: `normalizeZipCode` (lines 244-247): `replace(/\s+/g, '')` removes all
whitespace; the second replace maps every dash to a dash, the identity. -/
def normalizeZipCode (cs : Str) : Str :=
  cs.filter (fun c => !c.isWhitespace)

/-- The `type` discriminator of `LocationInput`. -/
inductive LocTy where
  | coordinates
  | zipcode
  | landmark
  | city
  | address
  | unknown
deriving DecidableEq

/-- Source: `LocationInput` (geocode.service.ts lines 16-20); `normalized` is always
assigned before use, so it is modelled as a plain field. -/
structure LocationInput where
  type : LocTy
  value : Str
  normalized : Str
deriving DecidableEq

/-- Source: `detectLocationType` (geocode.service.ts lines 91-136): trim, then test
coordinates, zip code, landmark, city in order, defaulting to address. -/
def detectLocationType (input : Str) : LocationInput :=
  let trimmed := trimStr input
  if isCoordinates trimmed then
    ⟨.coordinates, trimmed, normalizeCoordinates trimmed⟩
  else if isZipCode trimmed then
    ⟨.zipcode, trimmed, normalizeZipCode trimmed⟩
  else if isLandmark trimmed then
    ⟨.landmark, trimmed, trimmed⟩
  else if isCity trimmed then
    ⟨.city, trimmed, trimmed⟩
  else
    ⟨.address, trimmed, trimmed⟩

/-! ## Provider data shapes -/

/-- An axios-level provider failure: optional HTTP status (absent for
timeouts / network failures) and the error message. -/
structure ProviderError where
  status : Option Nat
  msg : Str
deriving DecidableEq

/-- One hit of the Open-Meteo geocoding `/search` response (fields the code
reads; JSON fields may be absent). -/
structure GeoHit where
  name : Option Str
  country : Option Str
  admin1 : Option Str
  admin2 : Option Str
  admin3 : Option Str
  latitude : JsNum
  longitude : JsNum
  feature_code : Option Str
deriving DecidableEq

/-- Source: `NominatimAddress` (reverse-geocoding provider, from the
`NominatimService` source). -/
structure NominatimAddress where
  railway : Option Str := none
  road : Option Str := none
  suburb : Option Str := none
  city : Option Str := none
  municipality : Option Str := none
  city_district : Option Str := none
  town : Option Str := none
  county : Option Str := none
  state_district : Option Str := none
  state : Option Str := none
  region : Option Str := none
  postcode : Option Str := none
  country : Option Str := none
  country_code : Option Str := none
deriving DecidableEq

/-- Source: `NominatimResult` (fields the code reads). -/
structure NominatimResult where
  lat : Str
  lon : Str
  name : Str
  display_name : Str
  address : NominatimAddress
deriving DecidableEq

/-- Address object of a hit of the Nominatim forward `/search` endpoint used
by `FallbackGeocodeService` (`result.address || \x7b\x7d` makes every field
optional). -/
structure FbAddress where
  city : Option Str := none
  town : Option Str := none
  village : Option Str := none
  hamlet : Option Str := none
  municipality : Option Str := none
  state : Option Str := none
  province : Option Str := none
  region : Option Str := none
  country : Option Str := none
deriving DecidableEq

/-- One hit of the Nominatim forward `/search` response. -/
structure FbHit where
  address : Option FbAddress
  display_name : Option Str
  lat : Str
  lon : Str
deriving DecidableEq

/-- Source: `ZipCodeBaseResult` (zipcodebase.service.ts): all fields are strings. -/
structure ZipCodeBaseResult where
  postal_code : Str
  country_code : Str
  latitude : Str
  longitude : Str
  city : Str
  state : Str
  city_en : Str
  state_en : Str
  state_code : Str
  province : Str
  province_code : Str
deriving DecidableEq

/-- The `resolvedBy` tag of `ILocation` (models/Record.ts). -/
inductive ResolvedBy where
  | coords
  | geocoding
  | zipcode
  | landmark
deriving DecidableEq

/-- Source: `ILocation` (models/Record.ts), the canonical resolved location. -/
structure ILoc where
  name : Str
  country : Str
  admin1 : Str
  lat : JsNum
  lon : JsNum
  resolvedBy : ResolvedBy
deriving DecidableEq

/-- The record returned by the private `reverseGeocode` helper. -/
structure RevInfo where
  name : Str
  country : Str
  admin1 : Str
  admin2 : Option Str
  admin3 : Option Str
deriving DecidableEq

/-- Typed errors thrown by the resolution chains.  `locationNotFound` is the
`LocationNotFoundError` class; the other two are plain `Error`s with the
given message. -/
inductive ResolveError where
  | locationNotFound (value : Str)
  | invalidCoordinates
  | geocodeServiceError (msg : Str)
deriving DecidableEq

/-- Source: `LocationNotFoundError`'s message (middleware/error.ts line 25). -/
def lnfMsg (v : Str) : Str :=
  "Location not found: ".data ++ v

/-- The wrapping applied by the catch-all handlers:
`Geocoding service error: <inner message>`. -/
def geoErrMsg (m : Str) : Str :=
  "Geocoding service error: ".data ++ m

/-- The network environment: one oracle per provider endpoint.  Each call is
keyed by the request parameters the code sends. -/
structure Env where
  /-- `NominatimService.reverseGeocode` (reverse endpoint, keyed by the
  stringified coordinates); `ok none` is a response without `place_id`. -/
  nominatimRev : JsNum → JsNum → Except ProviderError (Option NominatimResult)
  /-- Open-Meteo `/search` by `latitude`/`longitude` params (count 5). -/
  meteoRevSearch : JsNum → JsNum → Except ProviderError (List GeoHit)
  /-- Open-Meteo `/search` by `name` param, with the requested count.  A
  response without a `results` field is identified with the empty list. -/
  meteoSearch : Str → Nat → Except ProviderError (List GeoHit)
  /-- Nominatim forward `/search` used by `FallbackGeocodeService`. -/
  nomSearch : Str → Except ProviderError (List FbHit)
  /-- Whether `ZIPCODEBASE_API_KEY` is configured
  (`ZipCodeBaseService.isAvailable`). -/
  zipKeyAvailable : Bool
  /-- `ZipCodeBaseService.searchPostalCode`, keyed by the normalized code. -/
  zipSearch : Str → Except ProviderError (List ZipCodeBaseResult)

/-! ## NominatimService helpers (reverse provider) -/

/-- Truthy-and-nonblank test `field && field.trim()` on an optional string. -/
def presentStr (s : Option Str) : Bool :=
  strTruthy s && !(trimStr (s.getD [])).isEmpty

/-- Source: `NominatimService.buildLocationName`. -/
def nomBuildLocationName (r : NominatimResult) : Str :=
  let a := r.address
  let parts : List Str := []
  let parts := if presentStr (some r.name) then parts ++ [r.name] else parts
  let parts :=
    if presentStr a.city ∧ a.city ≠ some r.name then parts ++ [a.city.getD []]
    else parts
  let parts :=
    if presentStr a.city_district ∧ a.city_district ≠ a.city ∧
        a.city_district ≠ some r.name then
      parts ++ [a.city_district.getD []]
    else parts
  let parts :=
    if presentStr a.town ∧ a.town ≠ a.city ∧ a.town ≠ some r.name then
      parts ++ [a.town.getD []]
    else parts
  let parts :=
    if presentStr a.municipality ∧ a.municipality ≠ a.city ∧
        a.municipality ≠ some r.name then
      parts ++ [a.municipality.getD []]
    else parts
  let parts :=
    if presentStr a.suburb ∧ a.suburb ≠ a.city ∧ a.suburb ≠ some r.name then
      parts ++ [a.suburb.getD []]
    else parts
  let parts := if presentStr a.state then parts ++ [a.state.getD []] else parts
  let parts := if presentStr a.country then parts ++ [a.country.getD []] else parts
  if parts.length > 0 then joinComma parts else r.display_name

/-- Source: `NominatimService.getCountryName`. -/
def nomGetCountryName (r : NominatimResult) : Str :=
  orElseStr r.address.country "Unknown".data

/-- Source: `NominatimService.getStateName`. -/
def nomGetStateName (r : NominatimResult) : Str :=
  orElseStr r.address.state (orElseStr r.address.region "Unknown".data)

/-- Source: `NominatimService.getCityName`. -/
def nomGetCityName (r : NominatimResult) : Str :=
  orElseStr r.address.city
    (orElseStr r.address.city_district
      (orElseStr r.address.town
        (orElseStr r.address.municipality
          (orElseStr (some r.name) "Unknown".data))))

/-! ## FallbackGeocodeService -/

/-- Source: `FallbackGeocodeService.buildLocationName`. -/
def fbBuildLocationName (r : FbHit) : Str :=
  let a := r.address.getD {}
  let parts : List Str :=
    if strTruthy a.city then [a.city.getD []]
    else if strTruthy a.town then [a.town.getD []]
    else if strTruthy a.village then [a.village.getD []]
    else if strTruthy a.hamlet then [a.hamlet.getD []]
    else if strTruthy a.municipality then [a.municipality.getD []]
    else if strTruthy r.display_name then
      match (r.display_name.getD []).splitOn ',' with
      | seg :: _ => [trimStr seg]
      | [] => []
    else []
  let parts :=
    if strTruthy a.state ∧ a.state ≠ parts.head? then parts ++ [a.state.getD []]
    else if strTruthy a.province ∧ a.province ≠ parts.head? then
      parts ++ [a.province.getD []]
    else parts
  let parts := if strTruthy a.country then parts ++ [a.country.getD []] else parts
  if parts.length > 0 then joinComma parts
  else orElseStr r.display_name "Unknown Location".data

/-- Source: `FallbackGeocodeService.getCountryName`. -/
def fbGetCountryName (r : FbHit) : Str :=
  orElseStr (r.address.getD {}).country "Unknown".data

/-- Source: `FallbackGeocodeService.getStateName`. -/
def fbGetStateName (r : FbHit) : Str :=
  let a := r.address.getD {}
  orElseStr a.state (orElseStr a.province (orElseStr a.region "Unknown".data))

/-- Source: `FallbackGeocodeService.searchLocation`: one Nominatim forward query.
An empty response is the thrown `Error('No results found')`; note the
assembled result is tagged `resolvedBy: 'geocoding'`. -/
def searchLocation (env : Env) (query : Str) : Except ProviderError ILoc :=
  match env.nomSearch query with
  | .error e => .error e
  | .ok [] => .error ⟨none, "No results found".data⟩
  | .ok (h :: _) =>
    .ok { name := fbBuildLocationName h, country := fbGetCountryName h,
          admin1 := fbGetStateName h, lat := jsParseFloat h.lat,
          lon := jsParseFloat h.lon, resolvedBy := .geocoding }

/-- The fixed misspelling/locale-correction table of
`generateQueryVariations` (fallback-geocode.service.ts lines 153-163),
in object-literal order. -/
def corrections : List (Str × List Str) :=
  [("tokio".data, ["tokyo".data, "tokyo japan".data]),
   ("tokyo".data, ["tokyo japan".data, "tokyo, japan".data]),
   ("japan".data, ["japan".data, "japan country".data]),
   ("paris".data, ["paris france".data, "paris, france".data]),
   ("london".data, ["london england".data, "london uk".data, "london, england".data]),
   ("new york".data, ["new york city".data, "new york, ny".data, "new york city, ny".data]),
   ("los angeles".data, ["los angeles, ca".data, "los angeles california".data]),
   ("sao paulo".data, ["sao paulo brazil".data, "sao paulo, brazil".data]),
   ("rio de janeiro".data, ["rio de janeiro brazil".data, "rio de janeiro, brazil".data])]

/-- The place-type suffixes appended by `generateQueryVariations`. -/
def suffixes : List Str :=
  ["city".data, "town".data, "village".data, "municipality".data]

/-- Source: `FallbackGeocodeService.generateQueryVariations`. -/
def generateQueryVariations (query : Str) : List Str :=
  let lower := toLowerStr query
  let vars := [query]
  let vars := corrections.foldl
    (fun acc kv => if hasSubstr kv.1 lower then acc ++ kv.2 else acc) vars
  let vars := suffixes.foldl
    (fun acc suf =>
      if !hasSubstr suf lower then acc ++ [query ++ ' ' :: suf] else acc)
    vars
  dedupKeepFirst vars

/-- The loop body of `searchWithVariations`: try each query in order, skip
failures and `Unknown Location` names, return the first good hit. -/
def tryVariations (env : Env) : List Str → Option ILoc
  | [] => none
  | q :: qs =>
    match searchLocation env q with
    | .ok r => if r.name ≠ "Unknown Location".data then some r else tryVariations env qs
    | .error _ => tryVariations env qs

/-- Source: `FallbackGeocodeService.searchWithVariations`; exhausting every variation
throws `Error('No fallback location found for: ...')`. -/
def searchWithVariations (env : Env) (originalQuery : Str) : Except ProviderError ILoc :=
  match tryVariations env (generateQueryVariations originalQuery) with
  | some r => .ok r
  | none => .error ⟨none, "No fallback location found for: ".data ++ originalQuery⟩

/-! ## ZipCodeBaseService scoring -/

/-- Source: `result.city && result.city.trim()` — city present and non-blank. -/
def zipHasCity (r : ZipCodeBaseResult) : Bool :=
  !r.city.isEmpty && !(trimStr r.city).isEmpty

/-- Source: `result.state && result.state.trim()`. -/
def zipHasState (r : ZipCodeBaseResult) : Bool :=
  !r.state.isEmpty && !(trimStr r.state).isEmpty

/-- Source: `result.province && result.province.trim()`. -/
def zipHasProvince (r : ZipCodeBaseResult) : Bool :=
  !r.province.isEmpty && !(trimStr r.province).isEmpty

/-- Source: `result.country_code && result.country_code.trim()`. -/
def zipHasCountry (r : ZipCodeBaseResult) : Bool :=
  !r.country_code.isEmpty && !(trimStr r.country_code).isEmpty

/-- Both coordinate strings present, parsing to non-NaN values inside the
valid ranges (zipcodebase.service.ts lines 347-353). -/
def zipValidCoords (r : ZipCodeBaseResult) : Bool :=
  !r.latitude.isEmpty && !r.longitude.isEmpty &&
    (let la := jsParseFloat r.latitude
     let lo := jsParseFloat r.longitude
     !jsIsNaN la && !jsIsNaN lo &&
       jsLe (.fin (-90)) la && jsLe la (.fin 90) &&
       jsLe (.fin (-180)) lo && jsLe lo (.fin 180))

/-- Source: `ZipCodeBaseService.calculateResultScore`, in source order. -/
def calculateResultScore (r : ZipCodeBaseResult) : Nat :=
  (if zipHasCity r then 10 else 0) +
    (if zipHasState r then 8 else 0) +
    (if zipHasProvince r then 5 else 0) +
    (if zipValidCoords r then 15 else 0) +
    (if zipHasCountry r then 3 else 0)

/-- A scored candidate, as built in `getBestResult`. -/
structure Scored where
  result : ZipCodeBaseResult
  score : Nat
deriving DecidableEq

/-- One step of the stable descending sort: an element moves ahead only of
strictly lower-scored elements, so equal scores keep first-seen order —
the guaranteed behaviour of `Array.prototype.sort` with
`(a, b) => b.score - a.score`. -/
def insertByScoreDesc (x : Scored) : List Scored → List Scored
  | [] => [x]
  | y :: ys => if y.score ≤ x.score then x :: y :: ys else y :: insertByScoreDesc x ys

/-- Stable sort by descending score. -/
def sortByScoreDesc (l : List Scored) : List Scored :=
  l.foldr insertByScoreDesc []

/-- Source: `ZipCodeBaseService.getBestResult`. -/
def getBestResult (results : List ZipCodeBaseResult) : Option ZipCodeBaseResult :=
  match results with
  | [] => none
  | [r] => some r
  | _ =>
    match sortByScoreDesc (results.map fun r => ⟨r, calculateResultScore r⟩) with
    | best :: _ => some best.result
    | [] => none

/-! ## GeocodingService -/

/-- The fixed ISO-code → country-name table of `getCountryName`
(geocode.service.ts lines 385-412). -/
def countryMap : List (Str × Str) :=
  [("BR".data, "Brazil".data), ("US".data, "United States".data),
   ("CA".data, "Canada".data), ("GB".data, "United Kingdom".data),
   ("FR".data, "France".data), ("DE".data, "Germany".data),
   ("IT".data, "Italy".data), ("ES".data, "Spain".data),
   ("PT".data, "Portugal".data), ("JP".data, "Japan".data),
   ("CN".data, "China".data), ("IN".data, "India".data),
   ("AU".data, "Australia".data), ("MX".data, "Mexico".data),
   ("AR".data, "Argentina".data), ("CL".data, "Chile".data),
   ("CO".data, "Colombia".data), ("PE".data, "Peru".data),
   ("VE".data, "Venezuela".data), ("UY".data, "Uruguay".data),
   ("PY".data, "Paraguay".data), ("BO".data, "Bolivia".data),
   ("EC".data, "Ecuador".data), ("GY".data, "Guyana".data),
   ("SR".data, "Suriname".data), ("GF".data, "French Guiana".data)]

/-- Source: `getCountryName`: table lookup on the upper-cased code, defaulting to the
raw code. -/
def getCountryName (countryCode : Str) : Str :=
  match countryMap.lookup (toUpperStr countryCode) with
  | some n => n
  | none => countryCode

/-- Source: `buildLocationNameFromZipCodeBase` (geocode.service.ts lines 357-377). -/
def buildLocationNameFromZipCodeBase (r : ZipCodeBaseResult) : Str :=
  let parts : List Str := []
  let parts := if zipHasCity r then parts ++ [r.city] else parts
  let parts :=
    if zipHasState r ∧ r.state ≠ r.city then parts ++ [r.state] else parts
  let parts :=
    if zipHasProvince r ∧ r.province ≠ r.city ∧ r.province ≠ r.state then
      parts ++ [r.province]
    else parts
  let parts :=
    if zipHasCountry r then parts ++ [getCountryName r.country_code] else parts
  if parts.length > 0 then joinComma parts else r.postal_code

/-- The populated-place feature codes preferred by the reverse fallback. -/
def isPopulatedPlace (h : GeoHit) : Bool :=
  h.feature_code = some "PPL".data || h.feature_code = some "PPLA".data ||
    h.feature_code = some "PPLA2".data

/-- The coordinate-echo record `(name: "<lat>,<lon>", Unknown, Unknown)`. -/
def echoRev (lat lon : JsNum) : RevInfo :=
  { name := jsNumToString lat ++ ',' :: jsNumToString lon,
    country := "Unknown".data, admin1 := "Unknown".data,
    admin2 := none, admin3 := none }

/-- Source: `fallbackReverseGeocode` (geocode.service.ts lines 573-608): one broad
search with the coordinate pair as the query (count 3); any error is ignored
and the final fallback returns the coordinate echo.  This function never
throws. -/
def fallbackReverseGeocode (env : Env) (lat lon : JsNum) : RevInfo :=
  match env.meteoSearch (jsNumToString lat ++ ',' :: jsNumToString lon) 3 with
  | .ok (h :: _) =>
    { name := orElseStr h.name (jsNumToString lat ++ ',' :: jsNumToString lon),
      country := orElseStr h.country "Unknown".data,
      admin1 := orElseStr h.admin1 "Unknown".data,
      admin2 := none, admin3 := none }
  | .ok [] => echoRev lat lon
  | .error _ => echoRev lat lon

/-- The name assembled by the Open-Meteo reverse fallback
(geocode.service.ts lines 518-544). -/
def meteoRevName (best : GeoHit) (lat lon : JsNum) : Str :=
  let parts : List Str := []
  let parts := if strTruthy best.name then parts ++ [best.name.getD []] else parts
  let parts :=
    if strTruthy best.admin2 ∧ best.admin2 ≠ best.name ∧
        best.admin2 ≠ best.admin1 then
      parts ++ [best.admin2.getD []]
    else parts
  let parts := if strTruthy best.admin1 then parts ++ [best.admin1.getD []] else parts
  let parts := if strTruthy best.country then parts ++ [best.country.getD []] else parts
  if parts.length > 0 then joinComma parts
  else jsNumToString lat ++ ',' :: jsNumToString lon

/-- Source: `reverseGeocode` (geocode.service.ts lines 466-565): Nominatim first; on
failure or no result, Open-Meteo search by coordinates preferring a
populated-place hit; on empty results the broad fallback; any error in the
Open-Meteo stage yields the coordinate echo.  Every branch returns, so the
chain as a whole never throws. -/
def reverseGeocode (env : Env) (lat lon : JsNum) : RevInfo :=
  match env.nominatimRev lat lon with
  | .ok (some r) =>
    { name := nomBuildLocationName r, country := nomGetCountryName r,
      admin1 := nomGetStateName r, admin2 := some (nomGetCityName r),
      admin3 := r.address.suburb }
  | _ =>
    match env.meteoRevSearch lat lon with
    | .ok [] => fallbackReverseGeocode env lat lon
    | .ok (h :: t) =>
      let best := ((h :: t).find? isPopulatedPlace).getD h
      { name := meteoRevName best lat lon,
        country := orElseStr best.country "Unknown".data,
        admin1 := orElseStr best.admin1 "Unknown".data,
        admin2 := best.admin2, admin3 := best.admin3 }
    | .error _ => echoRev lat lon

/-- Source: `resolveCoordinates` (geocode.service.ts lines 254-286): parse the two
halves of the normalized string, range-check, then reverse geocode.  The
catch branch of the source (lines 275-285) is unreachable because
`reverseGeocode` never throws. -/
def resolveCoordinates (env : Env) (inp : LocationInput) : Except ResolveError ILoc :=
  let coords := inp.normalized.splitOn ','
  let lat := optParseFloat (coords.get? 0)
  let lon := optParseFloat (coords.get? 1)
  if jsLt lat (.fin (-90)) || jsLt (.fin 90) lat ||
      jsLt lon (.fin (-180)) || jsLt (.fin 180) lon then
    .error .invalidCoordinates
  else
    let d := reverseGeocode env lat lon
    .ok { name := d.name, country := d.country, admin1 := d.admin1,
          lat := lat, lon := lon, resolvedBy := .coords }

/-- The ZipCodeBase attempt of `resolveZipCode` (geocode.service.ts lines
294-314): `none` when no key is configured, the provider errors (caught and
logged), or no best result exists — all of which fall through to the
Open-Meteo fallback. -/
def zipCodeBaseAttempt (env : Env) (inp : LocationInput) : Option ILoc :=
  if env.zipKeyAvailable then
    match env.zipSearch inp.normalized with
    | .ok results =>
      match getBestResult results with
      | some best =>
        some { name := buildLocationNameFromZipCodeBase best,
               country := getCountryName best.country_code,
               admin1 := orElseStr (some best.state)
                 (orElseStr (some best.state_en) "Unknown".data),
               lat := jsParseFloat best.latitude,
               lon := jsParseFloat best.longitude,
               resolvedBy := .zipcode }
      | none => none
    | .error _ => none
  else none

/-- Source: `resolveZipCode` (geocode.service.ts lines 293-350): ZipCodeBase when a
key is configured (errors and empty results fall through), then the
Open-Meteo forward search; a 404/400 or an empty result set raises
`LocationNotFoundError`, other axios failures are wrapped. -/
def resolveZipCode (env : Env) (inp : LocationInput) : Except ResolveError ILoc :=
  match zipCodeBaseAttempt env inp with
  | some loc => .ok loc
  | none =>
    match env.meteoSearch inp.normalized 1 with
    | .ok [] => .error (.locationNotFound inp.value)
    | .ok (h :: _) =>
      .ok { name := orElseStr h.name inp.value,
            country := orElseStr h.country "Unknown".data,
            admin1 := orElseStr h.admin1 "Unknown".data,
            lat := h.latitude, lon := h.longitude, resolvedBy := .zipcode }
    | .error e =>
      if e.status = some 404 ∨ e.status = some 400 then
        .error (.locationNotFound inp.value)
      else .error (.geocodeServiceError (geoErrMsg e.msg))

/-- Source: `resolveTextLocation` (geocode.service.ts lines 422-458).  Note the
`LocationNotFoundError` raised after the variation fallback fails is thrown
inside the outer `try`, so the outer catch-all re-wraps it into the generic
`Geocoding service error: ...` error. -/
def resolveTextLocation (env : Env) (inp : LocationInput) : Except ResolveError ILoc :=
  match env.meteoSearch inp.normalized 1 with
  | .error e => .error (.geocodeServiceError (geoErrMsg e.msg))
  | .ok [] =>
    match searchWithVariations env inp.value with
    | .ok r => .ok r
    | .error _ => .error (.geocodeServiceError (geoErrMsg (lnfMsg inp.value)))
  | .ok (h :: _) =>
    .ok { name := orElseStr h.name "Unknown".data,
          country := orElseStr h.country "Unknown".data,
          admin1 := orElseStr h.admin1 "Unknown".data,
          lat := h.latitude, lon := h.longitude,
          resolvedBy := if inp.type = .landmark then .landmark else .geocoding }

/-- Source: `resolveByType` (geocode.service.ts lines 71-84). -/
def resolveByType (env : Env) (inp : LocationInput) : Except ResolveError ILoc :=
  match inp.type with
  | .coordinates => resolveCoordinates env inp
  | .zipcode => resolveZipCode env inp
  | _ => resolveTextLocation env inp

/-- The `locationType` hint enum accepted by `resolveLocation` (the zod
`locationTypeEnum`). -/
inductive Hint where
  | auto
  | coordinates
  | zipcode
  | landmark
  | city
  | address
deriving DecidableEq

/-- The `locationType as any` cast of the hint onto `LocationInput.type`
(only non-`auto` hints reach it). -/
def hintToTy : Hint → LocTy
  | .auto => .unknown
  | .coordinates => .coordinates
  | .zipcode => .zipcode
  | .landmark => .landmark
  | .city => .city
  | .address => .address

/-- Source: `resolveLocation` (geocode.service.ts lines 40-64): an explicit non-auto
hint bypasses detection (still normalizing coordinate and zip inputs);
otherwise the classifier runs. -/
def resolveLocation (env : Env) (input : Str) (locationType : Option Hint) :
    Except ResolveError ILoc :=
  let trimmed := trimStr input
  match locationType with
  | some h =>
    if h ≠ .auto then
      let normalized :=
        if h = .coordinates then normalizeCoordinates trimmed
        else if h = .zipcode then normalizeZipCode trimmed
        else trimmed
      resolveByType env ⟨hintToTy h, trimmed, normalized⟩
    else resolveByType env (detectLocationType trimmed)
  | none => resolveByType env (detectLocationType trimmed)

/-! ## Concrete environments for witnesses and counterexamples -/

/-- An environment where every provider times out or returns nothing. -/
def failEnv : Env :=
  { nominatimRev := fun _ _ => .error ⟨none, "timeout of 10000ms exceeded".data⟩,
    meteoRevSearch := fun _ _ => .error ⟨none, "timeout of 10000ms exceeded".data⟩,
    meteoSearch := fun _ _ => .ok [],
    nomSearch := fun _ => .ok [],
    zipKeyAvailable := false,
    zipSearch := fun _ => .ok [] }

/-- An environment where the first two reverse strategies find nothing and
the final fallback provider answers 429. -/
def rateLimitEnv : Env :=
  { nominatimRev := fun _ _ => .ok none,
    meteoRevSearch := fun _ _ => .ok [],
    meteoSearch := fun _ _ => .error ⟨some 429, "Request failed with status code 429".data⟩,
    nomSearch := fun _ => .ok [],
    zipKeyAvailable := false,
    zipSearch := fun _ => .ok [] }

/-- A Nominatim forward hit for the Eiffel Tower, as the fallback service
would receive it. -/
def eiffelHit : FbHit :=
  { address := some { city := some "Paris".data, state := some "Ile-de-France".data,
                      country := some "France".data },
    display_name := some "Eiffel Tower, Paris, France".data,
    lat := "48.8584".data, lon := "2.2945".data }

/-- An environment where the primary geocoder is empty but the Nominatim
fallback answers every query with the Eiffel Tower hit. -/
def eiffelEnv : Env :=
  { nominatimRev := fun _ _ => .ok none,
    meteoRevSearch := fun _ _ => .ok [],
    meteoSearch := fun _ _ => .ok [],
    nomSearch := fun _ => .ok [eiffelHit],
    zipKeyAvailable := false,
    zipSearch := fun _ => .ok [] }

/-- A forward-geocoder hit for the ZIP 12345 (Schenectady, NY). -/
def schenectadyHit : GeoHit :=
  { name := some "Schenectady".data, country := some "United States".data,
    admin1 := some "New York".data, admin2 := none, admin3 := none,
    latitude := .fin (428142/10000 : ℚ), longitude := .fin (-739396/10000 : ℚ),
    feature_code := some "PPL".data }

/-- An environment with no postal API key whose forward geocoder answers the
ZIP query. -/
def zipFallbackEnv : Env :=
  { nominatimRev := fun _ _ => .ok none,
    meteoRevSearch := fun _ _ => .ok [],
    meteoSearch := fun _ _ => .ok [schenectadyHit],
    nomSearch := fun _ => .ok [],
    zipKeyAvailable := false,
    zipSearch := fun _ => .ok [] }

/-- An environment with a postal API key whose ZipCodeBase provider errors,
while the forward geocoder answers the ZIP query. -/
def zipKeyErrEnv : Env :=
  { nominatimRev := fun _ _ => .ok none,
    meteoRevSearch := fun _ _ => .ok [],
    meteoSearch := fun _ _ => .ok [schenectadyHit],
    nomSearch := fun _ => .ok [],
    zipKeyAvailable := true,
    zipSearch := fun _ => .error ⟨some 429, "ZipCodeBase API rate limit exceeded".data⟩ }

/-- An environment with a postal API key whose ZipCodeBase provider returns
no candidates, while the forward geocoder answers the ZIP query. -/
def zipKeyEmptyEnv : Env :=
  { nominatimRev := fun _ _ => .ok none,
    meteoRevSearch := fun _ _ => .ok [],
    meteoSearch := fun _ _ => .ok [schenectadyHit],
    nomSearch := fun _ => .ok [],
    zipKeyAvailable := true,
    zipSearch := fun _ => .ok [] }

/-- A populated-place reverse hit used to exercise the fallback trigger. -/
def lisbonHit : GeoHit :=
  { name := some "Lisbon".data, country := some "Portugal".data,
    admin1 := some "Lisboa".data, admin2 := none, admin3 := none,
    latitude := .fin (387223/10000 : ℚ), longitude := .fin (-91393/10000 : ℚ),
    feature_code := some "PPLA".data }

/-- An environment where the primary reverse provider rate-limits but the
Open-Meteo stage answers. -/
def primary429Env : Env :=
  { nominatimRev := fun _ _ => .error ⟨some 429, "Nominatim API rate limit exceeded".data⟩,
    meteoRevSearch := fun _ _ => .ok [lisbonHit],
    meteoSearch := fun _ _ => .ok [],
    nomSearch := fun _ => .ok [],
    zipKeyAvailable := false,
    zipSearch := fun _ => .ok [] }

/-- Two ZipCodeBase candidates for the scoring witnesses: `zipFull` has every
scored field, `zipBare` only coordinates. -/
def zipFull : ZipCodeBaseResult :=
  { postal_code := "01310-100".data, country_code := "BR".data,
    latitude := "-23.5614".data, longitude := "-46.6559".data,
    city := "Sao Paulo".data, state := "Sao Paulo".data,
    city_en := "Sao Paulo".data, state_en := "Sao Paulo".data,
    state_code := "SP".data, province := "Bela Vista".data,
    province_code := "BV".data }

/-- A candidate missing city, state, province and country code. -/
def zipBare : ZipCodeBaseResult :=
  { postal_code := "01310-100".data, country_code := "".data,
    latitude := "-23.5614".data, longitude := "-46.6559".data,
    city := "".data, state := "".data, city_en := "".data, state_en := "".data,
    state_code := "".data, province := "".data, province_code := "".data }

/-- A second candidate with the same score as `zipBare` (tie case). -/
def zipTie : ZipCodeBaseResult :=
  { postal_code := "01310-200".data, country_code := "".data,
    latitude := "-23.5620".data, longitude := "-46.6560".data,
    city := "".data, state := "".data, city_en := "".data, state_en := "".data,
    state_code := "".data, province := "".data, province_code := "".data }

/-! ## Supporting lemmas: characters, whitespace, digit runs -/

theorem digit_not_ws {c : Char} (h : c.isDigit = true) : c.isWhitespace = false := by
  by_contra hc
  simp only [Bool.not_eq_false, Char.isWhitespace, Bool.or_eq_true,
    decide_eq_true_eq] at hc
  rcases hc with ((h1 | h1) | h1) | h1 <;> subst h1 <;> exact absurd h (by decide)

theorem digit_ne_special {c : Char} (h : c.isDigit = true) :
    c ≠ ',' ∧ c ≠ ';' ∧ c ≠ '°' ∧ c ≠ '-' := by
  refine ⟨?_, ?_, ?_, ?_⟩ <;> rintro rfl <;> exact absurd h (by decide)

/-- A head-condition stated so it also covers the empty list. -/
def HeadNotWs (cs : Str) : Prop :=
  ∀ c r, cs = c :: r → c.isWhitespace = false

def HeadNotDigit (cs : Str) : Prop :=
  ∀ c r, cs = c :: r → c.isDigit = false

theorem dropWs_eq_self {cs : Str} (h : HeadNotWs cs) : dropWs cs = cs := by
  cases cs with
  | nil => rfl
  | cons c r => simp [dropWs, h c r rfl]

theorem dropWs_suffix (cs : Str) :
    ∃ p, (∀ c ∈ p, c.isWhitespace = true) ∧ cs = p ++ dropWs cs := by
  induction cs with
  | nil => exact ⟨[], by simp, rfl⟩
  | cons c r ih =>
    by_cases hw : c.isWhitespace = true
    · obtain ⟨p, hp, he⟩ := ih
      exact ⟨c :: p, by simpa [hw] using hp, by simp [dropWs, hw, ← he]⟩
    · exact ⟨[], by simp, by simp [dropWs, hw]⟩

theorem trimStr_eq_self {cs : Str} (h1 : HeadNotWs cs) (h2 : HeadNotWs cs.reverse) :
    trimStr cs = cs := by
  unfold trimStr
  rw [dropWs_eq_self h1, dropWs_eq_self h2, List.reverse_reverse]

theorem trimStr_eq_self_of_no_ws {cs : Str} (h : ∀ c ∈ cs, c.isWhitespace = false) :
    trimStr cs = cs := by
  refine trimStr_eq_self ?_ ?_
  · intro c r he
    exact h c (he ▸ List.mem_cons_self c r)
  · intro c r he
    have : c ∈ cs.reverse := he ▸ List.mem_cons_self c r
    exact h c (List.mem_reverse.mp this)

theorem splitDigits_append (cs : Str) : cs = (splitDigits cs).1 ++ (splitDigits cs).2 := by
  induction cs with
  | nil => rfl
  | cons c r ih =>
    by_cases hd : c.isDigit = true
    · simp only [splitDigits, hd, if_true, List.cons_append]
      exact congrArg (c :: ·) ih
    · simp [splitDigits, hd]

theorem splitDigits_first_digits (cs : Str) :
    ∀ c ∈ (splitDigits cs).1, c.isDigit = true := by
  induction cs with
  | nil => simp [splitDigits]
  | cons c r ih =>
    by_cases hd : c.isDigit = true
    · simp only [splitDigits, hd, if_true]
      intro x hx
      rcases List.mem_cons.mp hx with rfl | hx
      · exact hd
      · exact ih x hx
    · simp [splitDigits, hd]

theorem splitDigits_cons_digit {c : Char} (hc : c.isDigit = true) (cs : Str) :
    splitDigits (c :: cs) = (c :: (splitDigits cs).1, (splitDigits cs).2) := by
  simp [splitDigits, hc]

theorem splitDigits_cons_notDigit {c : Char} (hc : c.isDigit = false) (cs : Str) :
    splitDigits (c :: cs) = ([], c :: cs) := by
  simp [splitDigits, hc]

theorem splitDigits_rest_headNotDigit (cs : Str) : HeadNotDigit (splitDigits cs).2 := by
  induction cs with
  | nil => intro c r h; simp [splitDigits] at h
  | cons c r ih =>
    by_cases hd : c.isDigit = true
    · simpa only [splitDigits_cons_digit hd] using ih
    · intro x t h
      rw [splitDigits_cons_notDigit (by simpa using hd)] at h
      obtain ⟨rfl, -⟩ := List.cons.injEq .. ▸ h.symm
      simpa using hd

theorem splitDigits_of_append {d t : Str} (hd : ∀ c ∈ d, c.isDigit = true)
    (ht : HeadNotDigit t) : splitDigits (d ++ t) = (d, t) := by
  induction d with
  | nil =>
    cases t with
    | nil => rfl
    | cons c r => simp [splitDigits, ht c r rfl]
  | cons c d' ih =>
    have hc : c.isDigit = true := hd c (List.mem_cons_self c d')
    have ih' := ih fun x hx => hd x (List.mem_cons_of_mem c hx)
    simp [splitDigits, hc, ih']

theorem splitDigits_of_all {d : Str} (hd : ∀ c ∈ d, c.isDigit = true) :
    splitDigits d = (d, []) := by
  have := splitDigits_of_append hd (t := []) (fun c r h => by simp at h)
  simpa using this

/-! ## Supporting lemmas: number tokens -/

/-- The shape of a `\d+\.?\d*` match. -/
def NumShape (g : Str) : Prop :=
  ∃ d1 rest, g = d1 ++ rest ∧ d1 ≠ [] ∧ (∀ c ∈ d1, c.isDigit = true) ∧
    (rest = [] ∨ ∃ d2, rest = '.' :: d2 ∧ ∀ c ∈ d2, c.isDigit = true)

/-- The shape of a `-?\d+\.?\d*` match. -/
def SignedShape (g : Str) : Prop :=
  NumShape g ∨ ∃ g0, g = '-' :: g0 ∧ NumShape g0

theorem numToken_cons_digit {c : Char} {cs' : Str} (hc : c.isDigit = true) :
    numToken (c :: cs') =
      (match splitDigits (c :: cs') with
       | (d1, '.' :: t) => some (d1 ++ '.' :: (splitDigits t).1, (splitDigits t).2)
       | p => some p) := by
  simp [numToken, hc]

theorem numToken_eq {cs g r : Str} (h : numToken cs = some (g, r)) :
    cs = g ++ r ∧ NumShape g := by
  cases cs with
  | nil => simp [numToken] at h
  | cons c cs' =>
    by_cases hc : c.isDigit = true
    · have hu : numToken (c :: cs') =
          (match splitDigits (c :: cs') with
           | (d1, '.' :: t) => some (d1 ++ '.' :: (splitDigits t).1, (splitDigits t).2)
           | p => some p) := by
        simp [numToken, hc]
      rw [hu, splitDigits_cons_digit hc] at h
      have happ : c :: cs' = (c :: (splitDigits cs').1) ++ (splitDigits cs').2 := by
        have := splitDigits_append (c :: cs')
        rwa [splitDigits_cons_digit hc] at this
      have hd1 : ∀ x ∈ c :: (splitDigits cs').1, x.isDigit = true := by
        have := splitDigits_first_digits (c :: cs')
        rwa [splitDigits_cons_digit hc] at this
      split at h
      · rename_i t heq
        rw [Option.some_inj, Prod.mk.injEq] at h
        obtain ⟨hg, hr⟩ := h
        obtain ⟨h1, h2⟩ := Prod.mk.injEq .. ▸ heq
        have ht : t = (splitDigits t).1 ++ (splitDigits t).2 := splitDigits_append t
        constructor
        · rw [happ, h2, ← hg, ← hr, ← h1]
          conv_lhs => rw [ht]
          simp
        · exact ⟨c :: (splitDigits cs').1, '.' :: (splitDigits t).1,
            by rw [← hg, ← h1], List.cons_ne_nil _ _, hd1,
            Or.inr ⟨(splitDigits t).1, rfl, splitDigits_first_digits t⟩⟩
      · rw [Option.some_inj] at h
        obtain ⟨hg, hr⟩ := Prod.mk.injEq .. ▸ h
        refine ⟨?_, c :: (splitDigits cs').1, [], ?_, List.cons_ne_nil _ _, hd1, Or.inl rfl⟩
        · rw [happ, hg, hr]
        · rw [← hg]
          simp
    · simp [numToken, hc] at h

/-- Separator-or-end condition for reassembled tokens. -/
def CommaOrEnd (t : Str) : Prop :=
  t = [] ∨ ∃ r, t = ',' :: r

theorem commaOrEnd_headNotDigit {t : Str} (ht : CommaOrEnd t) : HeadNotDigit t := by
  rcases ht with rfl | ⟨r, rfl⟩
  · intro c r h
    simp at h
  · intro c r' h
    injection h with h1 h2
    subst h1
    decide

theorem numToken_reparse {g t : Str} (hg : NumShape g) (ht : CommaOrEnd t) :
    numToken (g ++ t) = some (g, t) := by
  have hnt : HeadNotDigit t := commaOrEnd_headNotDigit ht
  obtain ⟨d1, rest, rfl, hne, hdig, hrest⟩ := hg
  obtain ⟨c, d1', rfl⟩ : ∃ c d1', d1 = c :: d1' := by
    cases d1 with
    | nil => exact absurd rfl hne
    | cons c d1' => exact ⟨c, d1', rfl⟩
  have hc : c.isDigit = true := hdig c (List.mem_cons_self _ _)
  rcases hrest with rfl | ⟨d2, rfl, hd2⟩
  · simp only [List.append_nil]
    have hs : splitDigits ((c :: d1') ++ t) = (c :: d1', t) :=
      splitDigits_of_append hdig hnt
    rw [List.cons_append, numToken_cons_digit hc, ← List.cons_append, hs]
    split
    · rename_i t' heq
      obtain ⟨-, h2⟩ := Prod.mk.injEq .. ▸ heq
      rcases ht with rfl | ⟨r, rfl⟩
      · exact absurd h2 (List.noConfusion)
      · exact absurd (List.cons.injEq .. ▸ h2).1 (by decide)
    · rfl
  · have hassoc : ((c :: d1') ++ '.' :: d2) ++ t = (c :: d1') ++ '.' :: (d2 ++ t) := by
      simp
    have hs : splitDigits ((c :: d1') ++ '.' :: (d2 ++ t)) = (c :: d1', '.' :: (d2 ++ t)) :=
      splitDigits_of_append hdig (fun x r h => by
        injection h with h1 h2
        subst h1
        decide)
    have hs2 : splitDigits (d2 ++ t) = (d2, t) := splitDigits_of_append hd2 hnt
    rw [hassoc, List.cons_append, numToken_cons_digit hc, ← List.cons_append, hs]
    split
    · rename_i t' heq
      obtain ⟨h1, h2⟩ := Prod.mk.injEq .. ▸ heq
      obtain ⟨-, rfl⟩ := List.cons.injEq .. ▸ h2
      rw [← h1, hs2]
    · rename_i hnomatch
      exact (hnomatch (c :: d1') (d2 ++ t) rfl).elim

theorem signedNumToken_eq {cs g r : Str} (h : signedNumToken cs = some (g, r)) :
    cs = g ++ r ∧ SignedShape g := by
  unfold signedNumToken at h
  split at h
  · rename_i rest
    rcases Option.map_eq_some'.mp h with ⟨⟨g0, r0⟩, hnum, hpair⟩
    obtain ⟨hg, hr⟩ := Prod.mk.injEq .. ▸ hpair
    obtain ⟨he, hshape⟩ := numToken_eq hnum
    refine ⟨by rw [← hg, ← hr, he]; rfl, Or.inr ⟨g0, hg.symm, hshape⟩⟩
  · obtain ⟨he, hshape⟩ := numToken_eq h
    exact ⟨he, Or.inl hshape⟩

theorem signedNumToken_reparse {g t : Str} (hg : SignedShape g) (ht : CommaOrEnd t) :
    signedNumToken (g ++ t) = some (g, t) := by
  rcases hg with hg | ⟨g0, rfl, hg0⟩
  · obtain ⟨d1, rest, rfl, hne, hdig, hrest⟩ := hg
    obtain ⟨c, d1', rfl⟩ : ∃ c d1', d1 = c :: d1' := by
      cases d1 with
      | nil => exact absurd rfl hne
      | cons c d1' => exact ⟨c, d1', rfl⟩
    have hc : c.isDigit = true := hdig c (List.mem_cons_self _ _)
    have hcne : c ≠ '-' := (digit_ne_special hc).2.2.2
    unfold signedNumToken
    split
    · rename_i rest' heq
      simp only [List.cons_append, List.cons.injEq] at heq
      exact absurd heq.1 hcne
    · exact numToken_reparse ⟨c :: d1', rest, rfl, hne, hdig, hrest⟩ ht
  · unfold signedNumToken
    split
    · rename_i rest' heq
      simp only [List.cons_append, List.cons.injEq, true_and] at heq
      rw [← heq, numToken_reparse hg0 ht]
      rfl
    · rename_i hnomatch
      exact (hnomatch (g0 ++ t) (List.cons_append '-' g0 t)).elim

theorem numShape_ne {g : Str} (h : NumShape g) : g ≠ [] := by
  obtain ⟨d1, rest, rfl, hne, -, -⟩ := h
  cases d1 with
  | nil => exact absurd rfl hne
  | cons c d1' => simp

theorem signedShape_ne {g : Str} (h : SignedShape g) : g ≠ [] := by
  rcases h with h | ⟨g0, rfl, h0⟩
  · exact numShape_ne h
  · simp

theorem signedShape_chars {g : Str} (h : SignedShape g) :
    ∀ c ∈ g, c.isDigit = true ∨ c = '-' ∨ c = '.' := by
  have base : ∀ g0, NumShape g0 → ∀ c ∈ g0, c.isDigit = true ∨ c = '-' ∨ c = '.' := by
    rintro g0 ⟨d1, rest, rfl, -, hdig, hrest⟩ c hc
    rcases List.mem_append.mp hc with hm | hm
    · exact Or.inl (hdig c hm)
    · rcases hrest with rfl | ⟨d2, rfl, hd2⟩
      · simp at hm
      · rcases List.mem_cons.mp hm with rfl | hm
        · exact Or.inr (Or.inr rfl)
        · exact Or.inl (hd2 c hm)
  rcases h with h | ⟨g0, rfl, h0⟩
  · exact base g h
  · intro c hc
    rcases List.mem_cons.mp hc with rfl | hc
    · exact Or.inr (Or.inl rfl)
    · exact base g0 h0 c hc

theorem signedShape_headNotWs {g : Str} (h : SignedShape g) : HeadNotWs g := by
  intro c r he
  have hc : c ∈ g := he ▸ List.mem_cons_self c r
  rcases signedShape_chars h c hc with hd | rfl | rfl
  · exact digit_not_ws hd
  · decide
  · decide

theorem numShape_reverse_head {g : Str} (h : NumShape g) :
    ∀ c r', g.reverse = c :: r' → (c.isDigit = true ∨ c = '.') := by
  obtain ⟨d1, rest, rfl, hne, hdig, hrest⟩ := h
  rcases hrest with rfl | ⟨d2, rfl, hd2⟩
  · intro c r' hr
    simp only [List.append_nil] at hr
    have : c ∈ d1.reverse := hr ▸ List.mem_cons_self c r'
    exact Or.inl (hdig c (List.mem_reverse.mp this))
  · intro c r' hr
    cases hd2e : d2 with
    | nil =>
      subst hd2e
      simp only [List.reverse_append, List.reverse_cons, List.reverse_nil,
        List.nil_append, List.cons_append, List.cons.injEq] at hr
      exact Or.inr hr.1.symm
    | cons e es =>
      subst hd2e
      have hrev : (d1 ++ '.' :: e :: es).reverse =
          (e :: es).reverse ++ '.' :: d1.reverse := by
        simp
      rw [hrev] at hr
      cases hrevc : (e :: es).reverse with
      | nil => exact absurd (List.reverse_eq_nil_iff.mp hrevc) (by simp)
      | cons x xs =>
        rw [hrevc, List.cons_append] at hr
        have hx : x = c := (List.cons.injEq .. ▸ hr).1
        subst hx
        have : x ∈ (e :: es).reverse := hrevc ▸ List.mem_cons_self _ _
        exact Or.inl (hd2 x (List.mem_reverse.mp this))

theorem signedShape_reverse_head {g : Str} (h : SignedShape g) :
    ∀ c r', g.reverse = c :: r' → (c.isDigit = true ∨ c = '.') := by
  rcases h with h | ⟨g0, rfl, h0⟩
  · exact numShape_reverse_head h
  · intro c r' hr
    rw [List.reverse_cons] at hr
    cases hrevc : g0.reverse with
    | nil => exact absurd (List.reverse_eq_nil_iff.mp hrevc) (numShape_ne h0)
    | cons x xs =>
      rw [hrevc, List.cons_append] at hr
      have hx : x = c := (List.cons.injEq .. ▸ hr).1
      exact hx ▸ numShape_reverse_head h0 x xs hrevc

/-! ## Matcher structure lemmas -/

theorem matchDecimal_parts {cs : Str} (h : matchDecimal cs = true) :
    ∃ g1 r g2, cs = g1 ++ ',' :: r ∧ SignedShape g1 ∧
      signedNumToken (dropWs r) = some (g2, []) ∧ SignedShape g2 := by
  unfold matchDecimal at h
  split at h
  · rename_i g1 r heq
    split at h
    · rename_i p g2 heq2
      obtain ⟨he, hs⟩ := signedNumToken_eq heq
      obtain ⟨-, hs2⟩ := signedNumToken_eq heq2
      exact ⟨g1, r, g2, he, hs, heq2, hs2⟩
    · exact absurd h (by simp)
  · exact absurd h (by simp)

theorem matchDecimal_comma {cs : Str} (h : matchDecimal cs = true) : ',' ∈ cs := by
  obtain ⟨g1, r, g2, rfl, -, -, -⟩ := matchDecimal_parts h
  simp

theorem altMatch_parts {cs g1 g2 : Str} (h : altMatch cs = some (g1, g2)) :
    ∃ r1 c r2, cs = g1 ++ r1 ∧ dropWs r1 = c :: r2 ∧ (c = ',' ∨ c = ';') ∧
      SignedShape g1 ∧ dropWs r2 = g2 ∧ SignedShape g2 := by
  unfold altMatch at h
  split at h
  · rename_i g1' r1 heq
    split at h
    · rename_i c r2 heq2
      split at h
      · rename_i hsep
        split at h
        · rename_i p g2' heq3
          rw [Option.some_inj, Prod.mk.injEq] at h
          obtain ⟨rfl, rfl⟩ := h
          obtain ⟨he, hs1⟩ := signedNumToken_eq heq
          obtain ⟨he2, hs2⟩ := signedNumToken_eq heq3
          simp only [List.append_nil] at he2
          exact ⟨r1, c, r2, he, heq2, hsep, hs1, he2, hs2⟩
        · exact absurd h (by simp)
      · exact absurd h (by simp)
    · exact absurd h (by simp)
  · exact absurd h (by simp)

theorem altMatch_sep {cs : Str} {p : Str × Str} (h : altMatch cs = some p) :
    ',' ∈ cs ∨ ';' ∈ cs := by
  obtain ⟨g1, g2⟩ := p
  obtain ⟨r1, c, r2, rfl, hdw, hsep, -, -, -⟩ := altMatch_parts h
  obtain ⟨pre, -, hr1⟩ := dropWs_suffix r1
  have hc : c ∈ r1 := by
    rw [hr1, hdw]
    simp
  rcases hsep with rfl | rfl
  · exact Or.inl (List.mem_append.mpr (Or.inr hc))
  · exact Or.inr (List.mem_append.mpr (Or.inr hc))

theorem dmsHalf_degree {f : Char → Bool} {cs : Str} {out} (h : dmsHalf f cs = some out) :
    '°' ∈ cs := by
  unfold dmsHalf at h
  split at h
  · exact absurd h (by simp)
  · rename_i deg r1 heq
    have := splitDigits_append cs
    rw [heq] at this
    rw [this]
    simp
  · exact absurd h (by simp)

theorem dmsParse_degree {cs : Str} {g : DmsGroups} (h : dmsParse cs = some g) :
    '°' ∈ cs := by
  unfold dmsParse at h
  split at h
  · rename_i out heq
    exact dmsHalf_degree heq
  · exact absurd h (by simp)

theorem dmsParse_none_of_no_degree {cs : Str} (h : '°' ∉ cs) : dmsParse cs = none := by
  cases hd : dmsParse cs with
  | none => rfl
  | some g => exact absurd (dmsParse_degree hd) h

theorem signedNumToken_none_of_head {c : Char} {l : Str} (hd : c.isDigit = false)
    (hm : c ≠ '-') : signedNumToken (c :: l) = none := by
  unfold signedNumToken
  split
  · rename_i rest heq
    exact absurd (List.cons.injEq .. ▸ heq).1 hm
  · simp [numToken, hd]

theorem altMatch_reassembled {g1 g2 : Str} (h1 : SignedShape g1) (h2 : SignedShape g2) :
    altMatch (g1 ++ ',' :: g2) = some (g1, g2) := by
  have hdw1 : dropWs (',' :: g2) = ',' :: g2 :=
    dropWs_eq_self (fun c r he => by
      injection he with hc hr
      subst hc
      decide)
  have hdw2 : dropWs g2 = g2 := dropWs_eq_self (signedShape_headNotWs h2)
  have htok2 : signedNumToken g2 = some (g2, []) := by
    have := signedNumToken_reparse h2 (Or.inl rfl)
    rwa [List.append_nil] at this
  unfold altMatch
  rw [signedNumToken_reparse h1 (Or.inr ⟨g2, rfl⟩)]
  split
  · rename_i g1' r1' heq
    obtain ⟨rfl, rfl⟩ := Prod.mk.injEq .. ▸ Option.some_inj.mp heq
    rw [hdw1]
    split
    · rename_i c r2 heq2
      injection heq2 with hc hr
      subst hc
      subst hr
      rw [if_pos (Or.inl rfl), hdw2, htok2]
    · rename_i hnomatch
      exact absurd hnomatch (by simp)
  · rename_i hnomatch
    exact absurd hnomatch (by simp)

/-! ## Digit-string facts about the number renderer -/

theorem digitChar_isDigit {k : Nat} (h : k < 10) : (Nat.digitChar k).isDigit = true := by
  interval_cases k <;> decide

theorem natDigitsRev_ne (n : Nat) : natDigitsRev n ≠ [] := by
  unfold natDigitsRev
  split <;> simp

theorem natDigitsRev_digits (n : Nat) : ∀ c ∈ natDigitsRev n, c.isDigit = true := by
  induction n using Nat.strong_induction_on with
  | _ n ih =>
    unfold natDigitsRev
    split
    · rename_i h
      intro c hc
      rw [List.mem_singleton.mp hc]
      exact digitChar_isDigit h
    · rename_i h
      intro c hc
      rcases List.mem_cons.mp hc with rfl | hc
      · exact digitChar_isDigit (Nat.mod_lt n (by norm_num))
      · exact ih (n / 10) (Nat.div_lt_self (by omega) (by norm_num)) c hc

theorem natStr_ne (n : Nat) : natStr n ≠ [] := by
  unfold natStr
  simpa using natDigitsRev_ne n

theorem natStr_digits (n : Nat) : ∀ c ∈ natStr n, c.isDigit = true := by
  intro c hc
  exact natDigitsRev_digits n c (List.mem_reverse.mp hc)

theorem fracDigitsAux_digits (fuel : Nat) :
    ∀ q : ℚ, 0 ≤ q → q < 1 → ∀ c ∈ fracDigitsAux fuel q, c.isDigit = true := by
  induction fuel with
  | zero => intro q _ _ c hc; simp [fracDigitsAux] at hc
  | succ fuel ih =>
    intro q h0 h1 c hc
    unfold fracDigitsAux at hc
    split at hc
    · simp at hc
    · have hfl : (q * 10).floor = ⌊q * 10⌋ := rfl
      rw [hfl] at hc
      have hb0 : (0 : ℚ) ≤ q * 10 := by positivity
      have hb1 : q * 10 < 10 := by linarith
      have hf0 : (0 : ℤ) ≤ ⌊q * 10⌋ := Int.floor_nonneg.mpr hb0
      have hf1 : ⌊q * 10⌋ < 10 := by
        have h2 := Int.floor_le (q * 10)
        by_contra hcon
        push_neg at hcon
        have : (10 : ℚ) ≤ (⌊q * 10⌋ : ℚ) := by exact_mod_cast hcon
        linarith
      rcases List.mem_cons.mp hc with rfl | hc
      · refine digitChar_isDigit ?_
        omega
      · refine ih (q * 10 - (⌊q * 10⌋ : ℚ)) ?_ ?_ c hc
        · have := Int.floor_le (q * 10)
          linarith
        · have := Int.lt_floor_add_one (q * 10)
          linarith

theorem ratStr_shape (q : ℚ) : SignedShape (ratStr q) := by
  unfold ratStr
  set a := |q| with ha
  set n := a.floor.toNat with hn
  set f := fracDigitsAux 40 (a - (n : ℚ)) with hf
  have ha0 : 0 ≤ a := abs_nonneg q
  have hfl : a.floor = ⌊a⌋ := rfl
  have hcastn : (n : ℚ) = ((⌊a⌋ : ℤ) : ℚ) := by
    rw [hn, hfl]
    exact_mod_cast congrArg (fun z : ℤ => (z : ℚ))
      (Int.toNat_of_nonneg (Int.floor_nonneg.mpr ha0))
  have hfr0 : 0 ≤ a - (n : ℚ) := by
    rw [hcastn]
    have := Int.floor_le a
    linarith
  have hfr1 : a - (n : ℚ) < 1 := by
    rw [hcastn]
    have := Int.lt_floor_add_one a
    linarith
  have hfd : ∀ c ∈ f, c.isDigit = true := fracDigitsAux_digits 40 _ hfr0 hfr1
  have hbody : NumShape (natStr n ++ (if f = [] then [] else '.' :: f)) := by
    refine ⟨natStr n, (if f = [] then [] else '.' :: f), rfl, natStr_ne n,
      natStr_digits n, ?_⟩
    split
    · exact Or.inl rfl
    · exact Or.inr ⟨f, rfl, hfd⟩
  split
  · exact Or.inr ⟨_, rfl, hbody⟩
  · exact Or.inl hbody

theorem numToken_none_of_head {c : Char} {l : Str} (hd : c.isDigit = false) :
    numToken (c :: l) = none := by
  simp [numToken, hd]

theorem signedNumToken_cons_dash (l : Str) :
    signedNumToken ('-' :: l) = (numToken l).map fun p => ('-' :: p.1, p.2) := rfl

theorem altMatch_none_of_tok {cs : Str} (h : signedNumToken cs = none) :
    altMatch cs = none := by
  unfold altMatch
  rw [h]

theorem altMatch_none_of_snd {A B : Str} (hA : SignedShape A) (hdw : dropWs B = B)
    (hB : signedNumToken B = none) : altMatch (A ++ ',' :: B) = none := by
  have hdw1 : dropWs (',' :: B) = ',' :: B :=
    dropWs_eq_self (fun c r he => by
      injection he with hc hr
      subst hc
      decide)
  unfold altMatch
  rw [signedNumToken_reparse hA (Or.inr ⟨B, rfl⟩)]
  split
  · rename_i g1' r1' heq
    obtain ⟨rfl, rfl⟩ := Prod.mk.injEq .. ▸ Option.some_inj.mp heq
    rw [hdw1]
    split
    · rename_i c r2 heq2
      injection heq2 with hc hr
      subst hc
      subst hr
      rw [if_pos (Or.inl rfl), hdw, hB]
    · rename_i hbad
      exact absurd hbad (by simp)
  · rename_i hbad
    exact absurd hbad (by simp)

/-- Unfolding equations of `normalizeCoordinates` for the three outcomes. -/
theorem normalize_of_dms {cs : Str} {g : DmsGroups} (h : dmsParse cs = some g) :
    normalizeCoordinates cs =
      jsNumToString (dmsValue g.latDeg g.latMin g.latSec g.latDir 'S') ++
        ',' :: jsNumToString (dmsValue g.lonDeg g.lonMin g.lonSec g.lonDir 'W') := by
  unfold normalizeCoordinates
  rw [h]

theorem normalize_of_alt {cs g1 g2 : Str} (hd : dmsParse cs = none)
    (ha : altMatch cs = some (g1, g2)) :
    normalizeCoordinates cs = g1 ++ ',' :: g2 := by
  unfold normalizeCoordinates
  rw [hd, ha]

theorem normalize_of_none {cs : Str} (hd : dmsParse cs = none)
    (ha : altMatch cs = none) : normalizeCoordinates cs = cs := by
  unfold normalizeCoordinates
  rw [hd, ha]

/-- The four possible shapes of a stringified JS number. -/
theorem numStr_cases (x : JsNum) :
    jsNumToString x = "NaN".data ∨ jsNumToString x = "Infinity".data ∨
      jsNumToString x = "-Infinity".data ∨ SignedShape (jsNumToString x) := by
  cases x with
  | nan => exact Or.inl rfl
  | inf => exact Or.inr (Or.inl rfl)
  | negInf => exact Or.inr (Or.inr (Or.inl rfl))
  | fin q => exact Or.inr (Or.inr (Or.inr (ratStr_shape q)))

theorem numStr_no_degree (x : JsNum) : '°' ∉ jsNumToString x := by
  rcases numStr_cases x with h | h | h | h
  · rw [h]; decide
  · rw [h]; decide
  · rw [h]; decide
  · intro hm
    rcases signedShape_chars h '°' hm with hd | he | he
    · exact absurd hd (by decide)
    · exact absurd he (by decide)
    · exact absurd he (by decide)

theorem strCase_no_degree {A : Str}
    (hA : A = "NaN".data ∨ A = "Infinity".data ∨ A = "-Infinity".data ∨ SignedShape A) :
    '°' ∉ A := by
  rcases hA with rfl | rfl | rfl | h
  · decide
  · decide
  · decide
  · intro hm
    rcases signedShape_chars h '°' hm with hd | he | he
    · exact absurd hd (by decide)
    · exact absurd he (by decide)
    · exact absurd he (by decide)

/-- Any `"<number>,<number>"` string produced by interpolation of two JS
numbers is a fixed point of `normalizeCoordinates`. -/
theorem normalize_fixed_pair (A B : Str)
    (hA : A = "NaN".data ∨ A = "Infinity".data ∨ A = "-Infinity".data ∨ SignedShape A)
    (hB : B = "NaN".data ∨ B = "Infinity".data ∨ B = "-Infinity".data ∨ SignedShape B) :
    normalizeCoordinates (A ++ ',' :: B) = A ++ ',' :: B := by
  have hdms : dmsParse (A ++ ',' :: B) = none := by
    refine dmsParse_none_of_no_degree ?_
    intro hm
    rcases List.mem_append.mp hm with hm | hm
    · exact strCase_no_degree hA hm
    · rcases List.mem_cons.mp hm with he | hm
      · exact absurd he (by decide)
      · exact strCase_no_degree hB hm
  rcases hA with rfl | rfl | rfl | hSA
  · refine normalize_of_none hdms (altMatch_none_of_tok ?_)
    rw [show ("NaN".data ++ ',' :: B) = 'N' :: ("aN".data ++ ',' :: B) from rfl]
    exact signedNumToken_none_of_head (by decide) (by decide)
  · refine normalize_of_none hdms (altMatch_none_of_tok ?_)
    rw [show ("Infinity".data ++ ',' :: B) = 'I' :: ("nfinity".data ++ ',' :: B) from rfl]
    exact signedNumToken_none_of_head (by decide) (by decide)
  · refine normalize_of_none hdms (altMatch_none_of_tok ?_)
    rw [show ("-Infinity".data ++ ',' :: B) = '-' :: ("Infinity".data ++ ',' :: B) from rfl]
    rw [signedNumToken_cons_dash]
    rw [show ("Infinity".data ++ ',' :: B) = 'I' :: ("nfinity".data ++ ',' :: B) from rfl]
    rw [numToken_none_of_head (by decide)]
    rfl
  · rcases hB with rfl | rfl | rfl | hSB
    · exact normalize_of_none hdms (altMatch_none_of_snd hSA (by decide) (by decide))
    · exact normalize_of_none hdms (altMatch_none_of_snd hSA (by decide) (by decide))
    · exact normalize_of_none hdms (altMatch_none_of_snd hSA (by decide) (by decide))
    · exact normalize_of_alt hdms (altMatch_reassembled hSA hSB)

/-- C8: `normalizeCoordinates` is idempotent — applying it twice gives the
same string as applying it once, for every input string.  A DMS or
alternate-separator input is mapped to a decimal `"lat,lon"` string that is a
fixed point, and anything unrecognized passes through unchanged. -/
theorem normalizeCoordinates_idem (s : Str) :
    normalizeCoordinates (normalizeCoordinates s) = normalizeCoordinates s := by
  cases hd : dmsParse s with
  | some g =>
    rw [normalize_of_dms hd]
    exact normalize_fixed_pair _ _ (numStr_cases _) (numStr_cases _)
  | none =>
    cases ha : altMatch s with
    | some p =>
      obtain ⟨g1, g2⟩ := p
      obtain ⟨r1, c, r2, -, -, -, hs1, -, hs2⟩ := altMatch_parts ha
      rw [normalize_of_alt hd ha]
      exact normalize_fixed_pair g1 g2 (Or.inr (Or.inr (Or.inr hs1)))
        (Or.inr (Or.inr (Or.inr hs2)))
    | none =>
      have he := normalize_of_none hd ha
      rw [he]
      exact he

/-! ## Lemmas for the type classifier -/

theorem matchDecimal_trim {s : Str} (h : matchDecimal s = true) : trimStr s = s := by
  obtain ⟨g1, r, g2, hs, hs1, htok2, hs2⟩ := matchDecimal_parts h
  obtain ⟨p, hp, hr⟩ := dropWs_suffix r
  have hdr : dropWs r = g2 := by
    have := (signedNumToken_eq htok2).1
    simpa using this
  refine trimStr_eq_self ?_ ?_
  · intro c r' he
    cases hg1 : g1 with
    | nil => exact absurd hg1 (signedShape_ne hs1)
    | cons x g1' =>
      rw [hs, hg1, List.cons_append] at he
      injection he with hx hr'
      exact hx ▸ signedShape_headNotWs hs1 x g1' hg1
  · intro c r' he
    have hsrev : s.reverse = g2.reverse ++ (p.reverse ++ ',' :: g1.reverse) := by
      rw [hs, hr, hdr]
      simp
    cases hg2 : g2.reverse with
    | nil => exact absurd (List.reverse_eq_nil_iff.mp hg2) (signedShape_ne hs2)
    | cons y ys =>
      rw [hsrev, hg2, List.cons_append] at he
      injection he with hy hr'
      rcases signedShape_reverse_head hs2 y ys hg2 with hd | hdot
      · exact hy ▸ digit_not_ws hd
      · rw [← hy, hdot]
        decide

theorem no_ws_of_digit_dash {s : Str} (h : ∀ c ∈ s, c.isDigit = true ∨ c = '-') :
    ∀ c ∈ s, c.isWhitespace = false := by
  intro c hc
  rcases h c hc with hd | rfl
  · exact digit_not_ws hd
  · decide

theorem isCoordinates_false_of_digit_dash {s : Str}
    (h : ∀ c ∈ s, c.isDigit = true ∨ c = '-') : isCoordinates s = false := by
  have hno : ∀ c ∈ s, c ≠ ',' ∧ c ≠ ';' ∧ c ≠ '°' := by
    intro c hc
    rcases h c hc with hd | rfl
    · exact ⟨(digit_ne_special hd).1, (digit_ne_special hd).2.1, (digit_ne_special hd).2.2.1⟩
    · refine ⟨by decide, by decide, by decide⟩
  have h1 : matchDecimal s = false := by
    cases hv : matchDecimal s with
    | false => rfl
    | true => exact absurd rfl (hno ',' (matchDecimal_comma hv)).1
  have h2 : dmsParse s = none := by
    cases hv : dmsParse s with
    | none => rfl
    | some g => exact absurd rfl (hno '°' (dmsParse_degree hv)).2.2
  have h3 : altMatch s = none := by
    cases hv : altMatch s with
    | none => rfl
    | some p =>
      rcases altMatch_sep hv with hm | hm
      · exact absurd rfl (hno ',' hm).1
      · exact absurd rfl (hno ';' hm).2.1
  simp [isCoordinates, h1, h2, h3]

theorem usZip_five {s : Str} (hlen : s.length = 5) (hdig : ∀ c ∈ s, c.isDigit = true) :
    usZip s = true := by
  unfold usZip
  rw [splitDigits_of_all hdig]
  simp [hlen]

theorem usZip_five_four {a b : Str} (hla : a.length = 5) (hlb : b.length = 4)
    (hda : ∀ c ∈ a, c.isDigit = true) (hdb : ∀ c ∈ b, c.isDigit = true) :
    usZip (a ++ '-' :: b) = true := by
  unfold usZip
  rw [splitDigits_of_append hda (fun c r he => by
    injection he with hc hr
    subst hc
    decide)]
  split
  · rename_i d heq
    obtain ⟨-, h2⟩ := Prod.mk.injEq .. ▸ heq
    exact absurd h2 (by simp)
  · rename_i d r heq
    obtain ⟨h1, h2⟩ := Prod.mk.injEq .. ▸ heq
    injection h2 with hhead h2b
    subst h1
    rw [← h2b, splitDigits_of_all hdb]
    split
    · rename_i e heq2
      obtain ⟨h3, -⟩ := Prod.mk.injEq .. ▸ heq2
      rw [← h3]
      simp [hla, hlb]
    · rename_i hnomatch
      exact (hnomatch b rfl).elim
  · rename_i hm1 hm2
    exact (hm2 a b rfl).elim

/-- C4: `detectLocationType` is a total pure function (a Lean `def`, so it
never throws) that tests the trimmed input in the fixed priority order
coordinates, zip code, landmark keyword, city shape, and otherwise returns
`address`; the first matching test determines the type.  Consequently every
string matching the decimal pattern classifies as `coordinates`, and every
5-digit or 5+4-digit numeric string classifies as `zipcode`. -/
theorem detectLocationType_spec :
    (∀ s : Str, isCoordinates (trimStr s) = true →
        (detectLocationType s).type = .coordinates) ∧
    (∀ s : Str, isCoordinates (trimStr s) = false → isZipCode (trimStr s) = true →
        (detectLocationType s).type = .zipcode) ∧
    (∀ s : Str, isCoordinates (trimStr s) = false → isZipCode (trimStr s) = false →
        isLandmark (trimStr s) = true → (detectLocationType s).type = .landmark) ∧
    (∀ s : Str, isCoordinates (trimStr s) = false → isZipCode (trimStr s) = false →
        isLandmark (trimStr s) = false → isCity (trimStr s) = true →
        (detectLocationType s).type = .city) ∧
    (∀ s : Str, isCoordinates (trimStr s) = false → isZipCode (trimStr s) = false →
        isLandmark (trimStr s) = false → isCity (trimStr s) = false →
        (detectLocationType s).type = .address) ∧
    (∀ s : Str, matchDecimal s = true → (detectLocationType s).type = .coordinates) ∧
    (∀ s : Str,
        ((s.length = 5 ∧ ∀ c ∈ s, c.isDigit = true) ∨
         (∃ a b, s = a ++ '-' :: b ∧ a.length = 5 ∧ b.length = 4 ∧
           (∀ c ∈ a, c.isDigit = true) ∧ (∀ c ∈ b, c.isDigit = true))) →
        (detectLocationType s).type = .zipcode) := by
  have hcoord : ∀ s : Str, isCoordinates (trimStr s) = true →
      (detectLocationType s).type = .coordinates := by
    intro s h
    simp [detectLocationType, h]
  have hzip : ∀ s : Str, isCoordinates (trimStr s) = false → isZipCode (trimStr s) = true →
      (detectLocationType s).type = .zipcode := by
    intro s h1 h2
    simp [detectLocationType, h1, h2]
  refine ⟨hcoord, hzip, ?_, ?_, ?_, ?_, ?_⟩
  · intro s h1 h2 h3
    simp [detectLocationType, h1, h2, h3]
  · intro s h1 h2 h3 h4
    simp [detectLocationType, h1, h2, h3, h4]
  · intro s h1 h2 h3 h4
    simp [detectLocationType, h1, h2, h3, h4]
  · intro s h
    have htrim : trimStr s = s := matchDecimal_trim h
    refine hcoord s ?_
    rw [htrim]
    simp [isCoordinates, h]
  · intro s hcases
    rcases hcases with ⟨hlen, hdig⟩ | ⟨a, b, rfl, hla, hlb, hda, hdb⟩
    · have hdd : ∀ c ∈ s, c.isDigit = true ∨ c = '-' := fun c hc => Or.inl (hdig c hc)
      have htrim : trimStr s = s :=
        trimStr_eq_self_of_no_ws (no_ws_of_digit_dash hdd)
      refine hzip s ?_ ?_ <;> rw [htrim]
      · exact isCoordinates_false_of_digit_dash hdd
      · simp [isZipCode, usZip_five hlen hdig]
    · have hdd : ∀ c ∈ a ++ '-' :: b, c.isDigit = true ∨ c = '-' := by
        intro c hc
        rcases List.mem_append.mp hc with hm | hm
        · exact Or.inl (hda c hm)
        · rcases List.mem_cons.mp hm with rfl | hm
          · exact Or.inr rfl
          · exact Or.inl (hdb c hm)
      have htrim : trimStr (a ++ '-' :: b) = a ++ '-' :: b :=
        trimStr_eq_self_of_no_ws (no_ws_of_digit_dash hdd)
      refine hzip _ ?_ ?_ <;> rw [htrim]
      · exact isCoordinates_false_of_digit_dash hdd
      · simp [isZipCode, usZip_five_four hla hlb hda hdb]

/-- Witness for C4: concrete classifications through the theorem. -/
theorem detectLocationType_spec_witness :
    (detectLocationType "12345".data).type = LocTy.zipcode ∧
      (detectLocationType "98765-4321".data).type = LocTy.zipcode ∧
      (detectLocationType "51.5074,-0.1278".data).type = LocTy.coordinates ∧
      (detectLocationType "Eiffel Tower".data).type = LocTy.landmark := by
  refine ⟨?_, ?_, ?_, ?_⟩
  · exact detectLocationType_spec.2.2.2.2.2.2 _ (Or.inl (by decide))
  · exact detectLocationType_spec.2.2.2.2.2.2 _
      (Or.inr ⟨"98765".data, "4321".data, by decide, by decide, by decide,
        by decide, by decide⟩)
  · exact detectLocationType_spec.2.2.2.2.2.1 _ (by decide)
  · exact detectLocationType_spec.2.2.1 _ (by decide) (by decide) (by decide)

/-! ## Coordinate-path claims -/

theorem jsLe_not_lt {a b : JsNum} (h : jsLe a b = true) : jsLt b a = false := by
  cases a <;> cases b <;> simp [jsLe, jsLt] at h ⊢ <;> linarith

/-- The `i`-th coordinate component as the coordinates-hint path parses it:
trim, normalize, split on commas, `parseFloat`. -/
def coordPart (s : Str) (i : Nat) : JsNum :=
  optParseFloat (((normalizeCoordinates (trimStr s)).splitOn ',').get? i)

/-- C3: every successfully resolved coordinate input echoes the parsed input
values — the returned `lat`/`lon` are exactly the parsed components, for any
provider behaviour, and `resolvedBy` is `coords`; concretely,
`"51.5074,-0.1278"` with hint `coordinates` resolves to those values. -/
theorem resolveCoordinates_preserves_input :
    (∀ (env : Env) (inp : LocationInput) (r : ILoc),
        resolveCoordinates env inp = .ok r →
        r.lat = optParseFloat ((inp.normalized.splitOn ',').get? 0) ∧
        r.lon = optParseFloat ((inp.normalized.splitOn ',').get? 1) ∧
        r.resolvedBy = .coords) ∧
    (∀ env : Env,
        (resolveLocation env "51.5074,-0.1278".data (some .coordinates)).map
            (fun r => (r.lat, r.lon, r.resolvedBy)) =
          .ok (.fin (515074/10000 : ℚ), .fin (-1278/10000 : ℚ), .coords)) := by
  constructor
  · intro env inp r h
    simp only [resolveCoordinates] at h
    split at h
    · exact absurd h (by simp)
    · rw [Except.ok.injEq] at h
      rw [← h]
      exact ⟨rfl, rfl, rfl⟩
  · intro env
    with_unfolding_all rfl

/-- Witness for C3: the general part applied at a concrete environment and
input, with the hypothesis discharged by evaluation. -/
theorem resolveCoordinates_preserves_input_witness :
    ∃ r : ILoc,
      resolveCoordinates failEnv ⟨.coordinates, "7,8".data, "7,8".data⟩ = .ok r ∧
      r.lat = optParseFloat ((("7,8".data : Str).splitOn ',').get? 0) ∧
      r.lon = optParseFloat ((("7,8".data : Str).splitOn ',').get? 1) ∧
      r.resolvedBy = .coords := by
  have h : resolveCoordinates failEnv ⟨.coordinates, "7,8".data, "7,8".data⟩ =
      .ok { name := "7,8".data, country := "Unknown".data, admin1 := "Unknown".data,
            lat := .fin 7, lon := .fin 8, resolvedBy := .coords } := by
    with_unfolding_all rfl
  exact ⟨_, h, resolveCoordinates_preserves_input.1 failEnv
    ⟨.coordinates, "7,8".data, "7,8".data⟩ _ h⟩

/-- C10 counterexample: the input `"300"` with hint `coordinates` does not
parse to two finite numbers (the second component is NaN), yet the
invalid-coordinates error IS raised, because the finite first component 300
fails `lat > 90`.  This refutes the claim that no invalid-coordinates error
is raised for every such input. -/
theorem nan_guard_cex :
    coordPart "300".data 1 = .nan ∧
      resolveLocation failEnv "300".data (some .coordinates) =
        .error .invalidCoordinates := by
  constructor
  · rfl
  · with_unfolding_all rfl

/-- C10 (amended): the range guard does not reject NaN.  For every input
resolved with hint `coordinates` whose parsed components are each either NaN
or inside the valid range — with at least one NaN, e.g. non-numeric text
(both NaN) or a single in-range number (missing second component) — every
guard comparison is false, no invalid-coordinates error is raised, and the
NaN components propagate into the returned `ResolvedLocation`. -/
theorem nan_coordinates_bypass_guard (env : Env) (s : Str)
    (hlat : coordPart s 0 = .nan ∨
      (jsLe (.fin (-90)) (coordPart s 0) = true ∧ jsLe (coordPart s 0) (.fin 90) = true))
    (hlon : coordPart s 1 = .nan ∨
      (jsLe (.fin (-180)) (coordPart s 1) = true ∧ jsLe (coordPart s 1) (.fin 180) = true))
    (hnan : coordPart s 0 = .nan ∨ coordPart s 1 = .nan) :
    ∃ r : ILoc, resolveLocation env s (some .coordinates) = .ok r ∧
      r.lat = coordPart s 0 ∧ r.lon = coordPart s 1 := by
  unfold coordPart at hlat hlon
  have hres : resolveLocation env s (some .coordinates) =
      resolveCoordinates env ⟨.coordinates, trimStr s, normalizeCoordinates (trimStr s)⟩ :=
    rfl
  rw [hres]
  simp only [resolveCoordinates]
  have hl1 : jsLt (optParseFloat (((normalizeCoordinates (trimStr s)).splitOn ',').get? 0))
      (.fin (-90)) = false := by
    rcases hlat with h | ⟨h1, h2⟩
    · rw [h]; rfl
    · exact jsLe_not_lt h1
  have hl2 : jsLt (.fin 90)
      (optParseFloat (((normalizeCoordinates (trimStr s)).splitOn ',').get? 0)) = false := by
    rcases hlat with h | ⟨h1, h2⟩
    · rw [h]; rfl
    · exact jsLe_not_lt h2
  have hl3 : jsLt (optParseFloat (((normalizeCoordinates (trimStr s)).splitOn ',').get? 1))
      (.fin (-180)) = false := by
    rcases hlon with h | ⟨h1, h2⟩
    · rw [h]; rfl
    · exact jsLe_not_lt h1
  have hl4 : jsLt (.fin 180)
      (optParseFloat (((normalizeCoordinates (trimStr s)).splitOn ',').get? 1)) = false := by
    rcases hlon with h | ⟨h1, h2⟩
    · rw [h]; rfl
    · exact jsLe_not_lt h2
  rw [hl1, hl2, hl3, hl4]
  simp only [Bool.or_false, if_false, Bool.false_eq_true, reduceIte]
  exact ⟨_, rfl, rfl, rfl⟩

/-- Witness for C10 (amended): non-numeric text with hint `coordinates`
resolves without error, carrying NaN coordinates. -/
theorem nan_coordinates_bypass_guard_witness :
    ∃ r : ILoc, resolveLocation failEnv "abc".data (some .coordinates) = .ok r ∧
      r.lat = coordPart "abc".data 0 ∧ r.lon = coordPart "abc".data 1 :=
  nan_coordinates_bypass_guard failEnv "abc".data (Or.inl (by decide))
    (Or.inl (by decide)) (Or.inl (by decide))

/-! ## Reverse-geocoding chain claims -/

/-- C2: for every in-range coordinate pair, if the primary reverse provider
fails or returns nothing, the Open-Meteo coordinate search fails or is empty,
and the broad fallback search fails or is empty, the chain returns
`(name: "<lat>,<lon>", country: "Unknown", admin1: "Unknown")`.  The chain is
a total function, so nothing is thrown from the final fallback. -/
theorem reverse_chain_final_fallback (env : Env) (lat lon : ℚ)
    (hlat : -90 ≤ lat ∧ lat ≤ 90) (hlon : -180 ≤ lon ∧ lon ≤ 180)
    (hn : env.nominatimRev (.fin lat) (.fin lon) = .ok none ∨
      ∃ e, env.nominatimRev (.fin lat) (.fin lon) = .error e)
    (hm : env.meteoRevSearch (.fin lat) (.fin lon) = .ok [] ∨
      ∃ e, env.meteoRevSearch (.fin lat) (.fin lon) = .error e)
    (hf : env.meteoSearch
        (jsNumToString (.fin lat) ++ ',' :: jsNumToString (.fin lon)) 3 = .ok [] ∨
      ∃ e, env.meteoSearch
        (jsNumToString (.fin lat) ++ ',' :: jsNumToString (.fin lon)) 3 = .error e) :
    reverseGeocode env (.fin lat) (.fin lon) =
      { name := jsNumToString (.fin lat) ++ ',' :: jsNumToString (.fin lon),
        country := "Unknown".data, admin1 := "Unknown".data,
        admin2 := none, admin3 := none } := by
  unfold reverseGeocode fallbackReverseGeocode
  rcases hn with hn | ⟨e1, hn⟩ <;> rw [hn] <;>
    (rcases hm with hm | ⟨e2, hm⟩ <;> rw [hm]) <;>
    (try rcases hf with hf | ⟨e3, hf⟩ <;> rw [hf]) <;> rfl

/-- Witness for C2: all providers fail at a concrete environment. -/
theorem reverse_chain_final_fallback_witness :
    reverseGeocode failEnv (.fin (25/2)) (.fin 7) =
      { name := "12.5,7".data, country := "Unknown".data, admin1 := "Unknown".data,
        admin2 := none, admin3 := none } := by
  have h := reverse_chain_final_fallback failEnv (25/2) 7 (by norm_num) (by norm_num)
    (Or.inr ⟨_, rfl⟩) (Or.inr ⟨_, rfl⟩) (Or.inl rfl)
  rw [h]
  with_unfolding_all rfl

/-- C7 counterexample: the final fallback provider answers 429 (first
conjunct), yet `reverseGeocode` returns the fabricated coordinate-echo
result instead of propagating a provider error (second conjunct) — the catch
in `fallbackReverseGeocode` ignores all errors. -/
theorem reverse_rate_limit_swallowed_cex :
    rateLimitEnv.meteoSearch
        (jsNumToString (.fin 10) ++ ',' :: jsNumToString (.fin 20)) 3 =
      .error ⟨some 429, "Request failed with status code 429".data⟩ ∧
    reverseGeocode rateLimitEnv (.fin 10) (.fin 20) =
      { name := "10,20".data, country := "Unknown".data, admin1 := "Unknown".data,
        admin2 := none, admin3 := none } := by
  constructor
  · rfl
  · with_unfolding_all rfl

/-- C7 (amended): in the reverse chain a rate limit (or any provider error)
from the primary provider triggers fallback to the Open-Meteo stage; an
error from the Open-Meteo coordinate search, or from the final broad
fallback provider, is swallowed and the chain returns the coordinate-echo
record — no provider error ever propagates out of the reverse chain. -/
theorem reverse_rate_limit_behaviour :
    (∀ (env : Env) (lat lon : JsNum) (e : ProviderError) (h : GeoHit) (t : List GeoHit),
        env.nominatimRev lat lon = .error e →
        env.meteoRevSearch lat lon = .ok (h :: t) →
        reverseGeocode env lat lon =
          { name := meteoRevName (((h :: t).find? isPopulatedPlace).getD h) lat lon,
            country := orElseStr (((h :: t).find? isPopulatedPlace).getD h).country
              "Unknown".data,
            admin1 := orElseStr (((h :: t).find? isPopulatedPlace).getD h).admin1
              "Unknown".data,
            admin2 := (((h :: t).find? isPopulatedPlace).getD h).admin2,
            admin3 := (((h :: t).find? isPopulatedPlace).getD h).admin3 }) ∧
    (∀ (env : Env) (lat lon : JsNum) (e : ProviderError),
        (env.nominatimRev lat lon = .ok none ∨
          ∃ e0, env.nominatimRev lat lon = .error e0) →
        env.meteoRevSearch lat lon = .error e →
        reverseGeocode env lat lon = echoRev lat lon) ∧
    (∀ (env : Env) (lat lon : JsNum) (e : ProviderError),
        (env.nominatimRev lat lon = .ok none ∨
          ∃ e0, env.nominatimRev lat lon = .error e0) →
        env.meteoRevSearch lat lon = .ok [] →
        env.meteoSearch (jsNumToString lat ++ ',' :: jsNumToString lon) 3 = .error e →
        reverseGeocode env lat lon = echoRev lat lon) := by
  refine ⟨?_, ?_, ?_⟩
  · intro env lat lon e h t hn hm
    unfold reverseGeocode
    rw [hn, hm]
  · intro env lat lon e hn hm
    unfold reverseGeocode
    rcases hn with hn | ⟨e0, hn⟩ <;> rw [hn, hm]
  · intro env lat lon e hn hm hf
    unfold reverseGeocode fallbackReverseGeocode
    rcases hn with hn | ⟨e0, hn⟩ <;> rw [hn, hm, hf]

/-- Witness for C7 (amended): a 429 primary triggers the Open-Meteo stage;
a 429 final fallback yields the echo record. -/
theorem reverse_rate_limit_behaviour_witness :
    reverseGeocode primary429Env (.fin 10) (.fin 20) =
      { name := "Lisbon, Lisboa, Portugal".data, country := "Portugal".data,
        admin1 := "Lisboa".data, admin2 := none, admin3 := none } ∧
    reverseGeocode rateLimitEnv (.fin 10) (.fin 20) = echoRev (.fin 10) (.fin 20) := by
  constructor
  · have h := reverse_rate_limit_behaviour.1 primary429Env (.fin 10) (.fin 20)
      ⟨some 429, "Nominatim API rate limit exceeded".data⟩ lisbonHit [] rfl rfl
    rw [h]
    with_unfolding_all rfl
  · exact reverse_rate_limit_behaviour.2.2 rateLimitEnv (.fin 10) (.fin 20)
      ⟨some 429, "Request failed with status code 429".data⟩ (Or.inl rfl) rfl rfl

/-! ## Text-chain claims -/

/-- C1: evaluation at the failing input.  When the primary geocoder is empty
and every fallback variation fails, the `LocationNotFoundError` raised at
geocode.service.ts line 442 is thrown inside the outer `try` (lines
423-455), so the catch-all at line 455 re-wraps it: the caller receives a
generic `Error("Geocoding service error: Location not found: ...")` — a
502-style provider error — instead of the typed 404 `LocationNotFoundError`
the spec promises. -/
theorem text_chain_wraps_notfound :
    resolveLocation failEnv "Nonexistent Placeqzx123".data (some .city) =
      .error (.geocodeServiceError
        ("Geocoding service error: Location not found: Nonexistent Placeqzx123".data)) := by
  with_unfolding_all rfl

theorem searchLocation_resolvedBy {env : Env} {q : Str} {r : ILoc}
    (h : searchLocation env q = .ok r) : r.resolvedBy = .geocoding := by
  unfold searchLocation at h
  split at h
  · exact absurd h (by simp)
  · exact absurd h (by simp)
  · rw [Except.ok.injEq] at h
    rw [← h]

theorem tryVariations_resolvedBy {env : Env} :
    ∀ (qs : List Str) (r : ILoc), tryVariations env qs = some r →
      r.resolvedBy = .geocoding := by
  intro qs
  induction qs with
  | nil => intro r h; simp [tryVariations] at h
  | cons q qs ih =>
    intro r h
    unfold tryVariations at h
    split at h
    · rename_i r0 heq
      split at h
      · rw [Option.some_inj] at h
        rw [← h]
        exact searchLocation_resolvedBy heq
      · exact ih r h
    · exact ih r h

theorem searchWithVariations_resolvedBy {env : Env} {q : Str} {r : ILoc}
    (h : searchWithVariations env q = .ok r) : r.resolvedBy = .geocoding := by
  unfold searchWithVariations at h
  split at h
  · rename_i r0 heq
    rw [Except.ok.injEq] at h
    rw [← h]
    exact tryVariations_resolvedBy _ _ heq
  · exact absurd h (by simp)

/-- C6 counterexample: `"Eiffel Tower"` is classified as a landmark, the
primary geocoder returns nothing, and the query-variation fallback resolves
it — but the result carries `resolvedBy: "geocoding"`, not `"landmark"`
(the fallback service always tags `geocoding`, fallback-geocode.service.ts
line 49). -/
theorem landmark_fallback_tag_cex :
    (detectLocationType "Eiffel Tower".data).type = .landmark ∧
    (resolveLocation eiffelEnv "Eiffel Tower".data none).map (fun r => r.resolvedBy) =
      .ok .geocoding := by
  constructor
  · with_unfolding_all rfl
  · with_unfolding_all rfl

/-- C6 (amended): an input resolved by the primary forward geocoder is
tagged `landmark` exactly when it was classified as a landmark, else
`geocoding`; an input resolved through the query-variation fallback is
always tagged `geocoding`, regardless of its classification. -/
theorem text_tagging :
    (∀ (env : Env) (inp : LocationInput) (h : GeoHit) (t : List GeoHit),
        env.meteoSearch inp.normalized 1 = .ok (h :: t) →
        ∃ r : ILoc, resolveTextLocation env inp = .ok r ∧
          r.resolvedBy = (if inp.type = .landmark then ResolvedBy.landmark else .geocoding)) ∧
    (∀ (env : Env) (inp : LocationInput) (r : ILoc),
        env.meteoSearch inp.normalized 1 = .ok [] →
        resolveTextLocation env inp = .ok r → r.resolvedBy = .geocoding) := by
  constructor
  · intro env inp h t hs
    unfold resolveTextLocation
    rw [hs]
    exact ⟨_, rfl, rfl⟩
  · intro env inp r hs h
    unfold resolveTextLocation at h
    rw [hs] at h
    split at h
    · rename_i e heq
      exact absurd heq (by simp)
    · split at h
      · rename_i r0 heq
        rw [Except.ok.injEq] at h
        rw [← h]
        exact searchWithVariations_resolvedBy heq
      · exact absurd h (by simp)
    · rename_i h0 t0 heq
      exact absurd heq (by simp)

/-- Witness for C6 (amended): a primary-resolved landmark is tagged
`landmark`; the fallback-resolved Eiffel Tower result is tagged `geocoding`. -/
theorem text_tagging_witness :
    (∃ r : ILoc, resolveTextLocation zipFallbackEnv
        ⟨.landmark, "Space Needle Tower".data, "Space Needle Tower".data⟩ = .ok r ∧
        r.resolvedBy = .landmark) ∧
    ({ name := "Paris, Ile-de-France, France".data, country := "France".data,
       admin1 := "Ile-de-France".data, lat := .fin (61073/1250 : ℚ),
       lon := .fin (4589/2000 : ℚ), resolvedBy := .geocoding } : ILoc).resolvedBy =
      .geocoding := by
  constructor
  · obtain ⟨r, hr, htag⟩ := text_tagging.1 zipFallbackEnv
      ⟨.landmark, "Space Needle Tower".data, "Space Needle Tower".data⟩
      schenectadyHit [] rfl
    exact ⟨r, hr, htag.trans (by decide)⟩
  · exact text_tagging.2 eiffelEnv
      ⟨.landmark, "Eiffel Tower".data, "Eiffel Tower".data⟩ _ rfl
      (by with_unfolding_all rfl)

/-! ## Zip-code chain claims -/

theorem zipCodeBaseAttempt_resolvedBy {env : Env} {inp : LocationInput} {loc : ILoc}
    (h : zipCodeBaseAttempt env inp = some loc) : loc.resolvedBy = .zipcode := by
  unfold zipCodeBaseAttempt at h
  split at h
  · split at h
    · split at h
      · rw [Option.some_inj] at h
        rw [← h]
      · exact absurd h (by simp)
    · exact absurd h (by simp)
  · exact absurd h (by simp)

/-- C9: the zip chain falls through to the forward-geocoder fallback when no
postal API key is configured, and equally when a key is configured but the
primary postal provider errors or returns no candidates; and every
successful result of the zip chain is tagged `resolvedBy: "zipcode"`,
whichever provider answered. -/
theorem zipcode_chain_spec :
    (∀ (env : Env) (inp : LocationInput) (h : GeoHit) (t : List GeoHit),
        env.zipKeyAvailable = false →
        env.meteoSearch inp.normalized 1 = .ok (h :: t) →
        resolveZipCode env inp = .ok
          { name := orElseStr h.name inp.value,
            country := orElseStr h.country "Unknown".data,
            admin1 := orElseStr h.admin1 "Unknown".data,
            lat := h.latitude, lon := h.longitude, resolvedBy := .zipcode }) ∧
    (∀ (env : Env) (inp : LocationInput) (e : ProviderError) (h : GeoHit) (t : List GeoHit),
        env.zipKeyAvailable = true →
        env.zipSearch inp.normalized = .error e →
        env.meteoSearch inp.normalized 1 = .ok (h :: t) →
        resolveZipCode env inp = .ok
          { name := orElseStr h.name inp.value,
            country := orElseStr h.country "Unknown".data,
            admin1 := orElseStr h.admin1 "Unknown".data,
            lat := h.latitude, lon := h.longitude, resolvedBy := .zipcode }) ∧
    (∀ (env : Env) (inp : LocationInput) (h : GeoHit) (t : List GeoHit),
        env.zipKeyAvailable = true →
        env.zipSearch inp.normalized = .ok [] →
        env.meteoSearch inp.normalized 1 = .ok (h :: t) →
        resolveZipCode env inp = .ok
          { name := orElseStr h.name inp.value,
            country := orElseStr h.country "Unknown".data,
            admin1 := orElseStr h.admin1 "Unknown".data,
            lat := h.latitude, lon := h.longitude, resolvedBy := .zipcode }) ∧
    (∀ (env : Env) (inp : LocationInput) (r : ILoc),
        resolveZipCode env inp = .ok r → r.resolvedBy = .zipcode) := by
  refine ⟨?_, ?_, ?_, ?_⟩
  · intro env inp h t hkey hs
    have hnone : zipCodeBaseAttempt env inp = none := by
      unfold zipCodeBaseAttempt
      rw [hkey]
      rfl
    unfold resolveZipCode
    rw [hnone, hs]
  · intro env inp e h t hkey hz hs
    have hnone : zipCodeBaseAttempt env inp = none := by
      unfold zipCodeBaseAttempt
      rw [hkey, if_pos rfl, hz]
    unfold resolveZipCode
    rw [hnone, hs]
  · intro env inp h t hkey hz hs
    have hnone : zipCodeBaseAttempt env inp = none := by
      unfold zipCodeBaseAttempt
      rw [hkey, if_pos rfl, hz]
      rfl
    unfold resolveZipCode
    rw [hnone, hs]
  · intro env inp r h
    unfold resolveZipCode at h
    split at h
    · rename_i loc heq
      rw [Except.ok.injEq] at h
      rw [← h]
      exact zipCodeBaseAttempt_resolvedBy heq
    · split at h
      · exact absurd h (by simp)
      · rw [Except.ok.injEq] at h
        rw [← h]
      · split at h
        · exact absurd h (by simp)
        · exact absurd h (by simp)

/-- Witness for C9: the ZIP `"12345"` resolves through the forward geocoder
tagged `zipcode` when no key is configured, when the configured postal
provider rate-limits, and when it returns no candidates. -/
theorem zipcode_chain_spec_witness :
    resolveZipCode zipFallbackEnv ⟨.zipcode, "12345".data, "12345".data⟩ = .ok
      { name := "Schenectady".data, country := "United States".data,
        admin1 := "New York".data, lat := .fin (428142/10000 : ℚ),
        lon := .fin (-739396/10000 : ℚ), resolvedBy := .zipcode } ∧
    resolveZipCode zipKeyErrEnv ⟨.zipcode, "12345".data, "12345".data⟩ = .ok
      { name := "Schenectady".data, country := "United States".data,
        admin1 := "New York".data, lat := .fin (428142/10000 : ℚ),
        lon := .fin (-739396/10000 : ℚ), resolvedBy := .zipcode } ∧
    resolveZipCode zipKeyEmptyEnv ⟨.zipcode, "12345".data, "12345".data⟩ = .ok
      { name := "Schenectady".data, country := "United States".data,
        admin1 := "New York".data, lat := .fin (428142/10000 : ℚ),
        lon := .fin (-739396/10000 : ℚ), resolvedBy := .zipcode } ∧
    ({ name := "Schenectady".data, country := "United States".data,
       admin1 := "New York".data, lat := .fin (428142/10000 : ℚ),
       lon := .fin (-739396/10000 : ℚ), resolvedBy := .zipcode } : ILoc).resolvedBy =
      .zipcode := by
  have h := zipcode_chain_spec.1 zipFallbackEnv ⟨.zipcode, "12345".data, "12345".data⟩
    schenectadyHit [] rfl rfl
  have h2 := zipcode_chain_spec.2.1 zipKeyErrEnv ⟨.zipcode, "12345".data, "12345".data⟩
    ⟨some 429, "ZipCodeBase API rate limit exceeded".data⟩ schenectadyHit [] rfl rfl rfl
  have h3 := zipcode_chain_spec.2.2.1 zipKeyEmptyEnv
    ⟨.zipcode, "12345".data, "12345".data⟩ schenectadyHit [] rfl rfl rfl
  exact ⟨h, h2, h3, zipcode_chain_spec.2.2.2 zipFallbackEnv
    ⟨.zipcode, "12345".data, "12345".data⟩ _ h⟩

/-! ## Postal scoring claims -/

theorem mem_insertByScoreDesc {x z : Scored} :
    ∀ {l : List Scored}, z ∈ insertByScoreDesc x l → z = x ∨ z ∈ l := by
  intro l
  induction l with
  | nil =>
    intro h
    simpa [insertByScoreDesc] using h
  | cons y ys ih =>
    intro h
    unfold insertByScoreDesc at h
    split at h
    · rcases List.mem_cons.mp h with rfl | h
      · exact Or.inl rfl
      · exact Or.inr h
    · rcases List.mem_cons.mp h with rfl | h
      · exact Or.inr (List.mem_cons_self _ _)
      · rcases ih h with rfl | h
        · exact Or.inl rfl
        · exact Or.inr (List.mem_cons_of_mem _ h)

theorem mem_sortByScoreDesc {z : Scored} :
    ∀ {l : List Scored}, z ∈ sortByScoreDesc l → z ∈ l := by
  intro l
  induction l with
  | nil => intro h; simpa [sortByScoreDesc] using h
  | cons y ys ih =>
    intro h
    have : z ∈ insertByScoreDesc y (sortByScoreDesc ys) := h
    rcases mem_insertByScoreDesc this with rfl | h2
    · exact List.mem_cons_self _ _
    · exact List.mem_cons_of_mem _ (ih h2)

theorem insertByScoreDesc_top {x : Scored} {l : List Scored}
    (h : ∀ y ∈ l, y.score ≤ x.score) : insertByScoreDesc x l = x :: l := by
  cases l with
  | nil => rfl
  | cons y ys =>
    unfold insertByScoreDesc
    rw [if_pos (h y (List.mem_cons_self _ _))]

/-- Unfolding equation for `insertByScoreDesc` on a nonempty list. -/
theorem insertByScoreDesc_cons (x y : Scored) (ys : List Scored) :
    insertByScoreDesc x (y :: ys) =
      if y.score ≤ x.score then x :: y :: ys else y :: insertByScoreDesc x ys := by
  rfl

/-- The head of the stable descending sort of a nonempty list is its first
maximal-score element: everything before it in the original list scores
strictly less, everything after at most as much. -/
theorem sortByScoreDesc_first_max (a : Scored) (l : List Scored) :
    ∃ b rest l1 l2, sortByScoreDesc (a :: l) = b :: rest ∧
      a :: l = l1 ++ b :: l2 ∧
      (∀ x ∈ l1, x.score < b.score) ∧
      (∀ x ∈ l2, x.score ≤ b.score) := by
  induction l generalizing a with
  | nil => exact ⟨a, [], [], [], rfl, rfl, by simp, by simp⟩
  | cons y ys ih =>
    obtain ⟨b, rest, l1, l2, hsort, hdecomp, hstrict, hle⟩ := ih y
    by_cases hcmp : b.score ≤ a.score
    · refine ⟨a, b :: rest, [], y :: ys, ?_, rfl, by simp, ?_⟩
      · show insertByScoreDesc a (sortByScoreDesc (y :: ys)) = a :: b :: rest
        rw [hsort, insertByScoreDesc_cons, if_pos hcmp]
      · intro x hx
        rw [hdecomp] at hx
        rcases List.mem_append.mp hx with hx | hx
        · exact le_trans (le_of_lt (hstrict x hx)) hcmp
        · rcases List.mem_cons.mp hx with rfl | hx
          · exact hcmp
          · exact le_trans (hle x hx) hcmp
    · refine ⟨b, insertByScoreDesc a rest, a :: l1, l2, ?_, ?_, ?_, hle⟩
      · show insertByScoreDesc a (sortByScoreDesc (y :: ys)) = b :: insertByScoreDesc a rest
        rw [hsort, insertByScoreDesc_cons, if_neg hcmp]
      · rw [List.cons_append, hdecomp]
      · intro x hx
        rcases List.mem_cons.mp hx with rfl | hx
        · exact not_le.mp hcmp
        · exact hstrict x hx

theorem map_eq_append_cons {α β : Type} {f : α → β} {b : β} :
    ∀ {l : List α} {L1 L2 : List β}, l.map f = L1 ++ b :: L2 →
      ∃ l1 x l2, l = l1 ++ x :: l2 ∧ l1.map f = L1 ∧ f x = b ∧ l2.map f = L2 := by
  intro l
  induction l with
  | nil =>
    intro L1 L2 h
    cases L1 <;> simp at h
  | cons a l ih =>
    intro L1 L2 h
    cases L1 with
    | nil =>
      rw [List.map_cons, List.nil_append] at h
      injection h with h1 h2
      exact ⟨[], a, l, rfl, rfl, h1, h2⟩
    | cons c L1' =>
      rw [List.map_cons, List.cons_append] at h
      injection h with h1 h2
      obtain ⟨l1, x, l2, hdec, hm1, hfx, hm2⟩ := ih h2
      exact ⟨a :: l1, x, l2, by rw [List.cons_append, hdec],
        by rw [List.map_cons, hm1, h1], hfx, hm2⟩

theorem score_if_mono (b b' : Bool) (k : Nat) (h : b' = true → b = true) :
    (if b' = true then k else 0) ≤ (if b = true then k else 0) := by
  cases b' with
  | false => simp
  | true => rw [h rfl]

/-- C5: the postal candidate score is the sum of +15 for valid in-range
coordinates, +10 for a city, +8 for a state, +5 for a province, +3 for a
country code; it is monotone in field presence (a candidate with every field
scores at least a candidate missing any of them, all else equal); and
`getBestResult` on any nonempty candidate list picks a candidate whose score
is maximal, with ties broken by first-seen order: every candidate strictly
before the chosen one scores strictly less, and nothing scores more. -/
theorem zip_scoring_spec :
    (∀ r : ZipCodeBaseResult, calculateResultScore r =
        (if zipValidCoords r then 15 else 0) + (if zipHasCity r then 10 else 0) +
        (if zipHasState r then 8 else 0) + (if zipHasProvince r then 5 else 0) +
        (if zipHasCountry r then 3 else 0)) ∧
    (∀ r r' : ZipCodeBaseResult,
        (zipValidCoords r' = true → zipValidCoords r = true) →
        (zipHasCity r' = true → zipHasCity r = true) →
        (zipHasState r' = true → zipHasState r = true) →
        (zipHasProvince r' = true → zipHasProvince r = true) →
        (zipHasCountry r' = true → zipHasCountry r = true) →
        calculateResultScore r' ≤ calculateResultScore r) ∧
    (∀ (r : ZipCodeBaseResult) (rs : List ZipCodeBaseResult),
        ∃ b l1 l2, getBestResult (r :: rs) = some b ∧
          r :: rs = l1 ++ b :: l2 ∧
          (∀ x ∈ r :: rs, calculateResultScore x ≤ calculateResultScore b) ∧
          (∀ x ∈ l1, calculateResultScore x < calculateResultScore b)) := by
  refine ⟨?_, ?_, ?_⟩
  · intro r
    unfold calculateResultScore
    ring
  · intro r r' h1 h2 h3 h4 h5
    unfold calculateResultScore
    have a1 := score_if_mono _ _ 10 h2
    have a2 := score_if_mono _ _ 8 h3
    have a3 := score_if_mono _ _ 5 h4
    have a4 := score_if_mono _ _ 15 h1
    have a5 := score_if_mono _ _ 3 h5
    omega
  · intro r rs
    cases rs with
    | nil =>
      refine ⟨r, [], [], rfl, rfl, ?_, by simp⟩
      intro x hx
      rw [List.mem_singleton.mp hx]
    | cons y ys =>
      obtain ⟨b0, rest, L1, L2, hsort, hdecomp, hstrict, hle⟩ :=
        sortByScoreDesc_first_max ⟨r, calculateResultScore r⟩
          ((y :: ys).map fun x => (⟨x, calculateResultScore x⟩ : Scored))
      have hmapeq : (r :: y :: ys).map (fun x => (⟨x, calculateResultScore x⟩ : Scored)) =
          ⟨r, calculateResultScore r⟩ ::
            (y :: ys).map (fun x => (⟨x, calculateResultScore x⟩ : Scored)) := rfl
      have hm : (r :: y :: ys).map (fun x => (⟨x, calculateResultScore x⟩ : Scored)) =
          L1 ++ b0 :: L2 := by rw [hmapeq, hdecomp]
      obtain ⟨l1, x, l2, hdec, hm1, hfx, hm2⟩ := map_eq_append_cons hm
      have hbres : b0.result = x := by rw [← hfx]
      have hbscore : b0.score = calculateResultScore x := by rw [← hfx]
      have hbest : getBestResult (r :: y :: ys) = some b0.result := by
        unfold getBestResult
        rw [show sortByScoreDesc ((r :: y :: ys).map fun x =>
            (⟨x, calculateResultScore x⟩ : Scored)) = b0 :: rest from by
          rw [hmapeq]; exact hsort]
      refine ⟨x, l1, l2, by rw [hbest, hbres], hdec, ?_, ?_⟩
      · intro z hz
        rw [hdec] at hz
        rcases List.mem_append.mp hz with hz | hz
        · have hzl : (⟨z, calculateResultScore z⟩ : Scored) ∈ L1 := by
            rw [← hm1]
            exact List.mem_map_of_mem _ hz
          have := hstrict _ hzl
          rw [hbscore] at this
          exact le_of_lt this
        · rcases List.mem_cons.mp hz with rfl | hz
          · exact le_refl _
          · have hzl : (⟨z, calculateResultScore z⟩ : Scored) ∈ L2 := by
              rw [← hm2]
              exact List.mem_map_of_mem _ hz
            have := hle _ hzl
            rwa [hbscore] at this
      · intro z hz
        have hzl : (⟨z, calculateResultScore z⟩ : Scored) ∈ L1 := by
          rw [← hm1]
          exact List.mem_map_of_mem _ hz
        have := hstrict _ hzl
        rwa [hbscore] at this

/-- Witness for C5: monotonicity at concrete candidates, a strictly
higher-scored later candidate being selected over the head
(`[zipBare, zipFull]` picks `zipFull`), and a first-seen tie
(`[zipBare, zipTie]` both score 15, the first is picked). -/
theorem zip_scoring_spec_witness :
    calculateResultScore zipBare ≤ calculateResultScore zipFull ∧
      getBestResult [zipBare, zipFull] = some zipFull ∧
      getBestResult [zipBare, zipTie] = some zipBare := by
  refine ⟨?_, ?_, ?_⟩
  · refine zip_scoring_spec.2.1 zipFull zipBare ?_ ?_ ?_ ?_ ?_
    · intro h
      with_unfolding_all rfl
    · intro h
      exact absurd h (by rw [show zipHasCity zipBare = false from rfl]; simp)
    · intro h
      exact absurd h (by rw [show zipHasState zipBare = false from rfl]; simp)
    · intro h
      exact absurd h (by rw [show zipHasProvince zipBare = false from rfl]; simp)
    · intro h
      exact absurd h (by rw [show zipHasCountry zipBare = false from rfl]; simp)
  · with_unfolding_all rfl
  · with_unfolding_all rfl

end Geo
